import Mathlib

/-!
Verification development for the tryke test-discovery and reporting engine.

The Rust sources are embedded shallowly:

* `crates/tryke_discovery/src/lib.rs` — Python AST fragments (as produced by
  the external `ruff` parser) become the inductive types `PyExpr`/`PyStmt`;
  every discovery function is transcribed one-to-one.  Source text is a
  `String` and `ruff` text ranges become `Nat × Nat` character ranges; the
  external `LineIndex` becomes an explicit `Nat → Nat` function supplied with
  each file.
* `crates/tryke_types/src/lib.rs` — the shared data model, with `Duration`
  as a nanosecond count.
* `crates/tryke_reporter/src/*.rs` — each backend's callbacks as pure
  functions from state to emitted output.
* `crates/tryke/src/main.rs` — the run driver's summary fold, with the wall
  clock reading (`Instant::elapsed`) as an explicit parameter.
-/

set_option maxRecDepth 100000

namespace Tryke

/-! ## Python AST (the fragment inspected by discovery)

Mirrors the `ruff_python_ast` constructors that
`crates/tryke_discovery/src/lib.rs` matches on.  Every node carries its text
range (start, end) in characters, standing for `TextRange`; a keyword
argument is `(arg?, value)` standing for `ast::Keyword`. -/

inductive PyExpr where
  | name (range : Nat × Nat) (id : String)
  | attribute (range : Nat × Nat) (value : PyExpr) (attr : String)
  | call (range : Nat × Nat) (func : PyExpr) (args : List PyExpr)
      (keywords : List (Option String × PyExpr))
  | stringLit (range : Nat × Nat) (value : String)
  | otherExpr (range : Nat × Nat)

/-- The range of any expression node (`Ranged::range` in ruff). -/
def PyExpr.range : PyExpr → Nat × Nat
  | .name r _ => r
  | .attribute r _ _ => r
  | .call r _ _ _ => r
  | .stringLit r _ => r
  | .otherExpr r => r

/-- Statements, restricted to the constructors `tryke_discovery` matches on;
every other statement kind is `otherStmt`.  An `ifStmt` carries its
elif/else clauses as `(test?, body)` pairs, mirroring `ElifElseClause`. -/
inductive PyStmt where
  | functionDef (range : Nat × Nat) (name : String)
      (decoratorList : List PyExpr) (body : List PyStmt)
  | classDef (range : Nat × Nat) (name : String)
  | assign (range : Nat × Nat) (targets : List PyExpr)
  | annAssign (range : Nat × Nat) (target : PyExpr)
  | exprStmt (range : Nat × Nat) (value : PyExpr)
  | ret (range : Nat × Nat) (value : Option PyExpr)
  | ifStmt (range : Nat × Nat) (test : PyExpr) (body : List PyStmt)
      (elifElseClauses : List (Option PyExpr × List PyStmt))
  | forStmt (range : Nat × Nat) (body : List PyStmt) (orelse : List PyStmt)
  | whileStmt (range : Nat × Nat) (body : List PyStmt) (orelse : List PyStmt)
  | withStmt (range : Nat × Nat) (body : List PyStmt)
  | tryStmt (range : Nat × Nat) (body : List PyStmt) (orelse : List PyStmt)
      (finalbody : List PyStmt)
  | otherStmt (range : Nat × Nat)

/-! ## Shared data model (`crates/tryke_types/src/lib.rs`) -/

/-- Source: `tryke_types::ExpectedAssertion`. `line` is the `u32` value (`Nat`,
with the `u32::try_from(..).unwrap_or(0)` clamp applied at construction). -/
structure ExpectedAssertion where
  subject : String
  matcher : String
  negated : Bool
  args : List String
  line : Nat
  label : Option String
deriving DecidableEq, Repr

/-- Source: `tryke_types::TestItem`.  `file_path : Option String` stands for
`Option<PathBuf>` (slash-separated). -/
structure TestItem where
  name : String
  module_path : String
  file_path : Option String
  line_number : Option Nat
  display_name : Option String
  expected_assertions : List ExpectedAssertion
deriving DecidableEq, Repr

/-- Source: `tryke_types::Assertion` — a runtime-observed failure detail. -/
structure Assertion where
  expression : String
  file : Option String
  line : Nat
  span_offset : Nat
  span_length : Nat
  expected : String
  received : String
deriving DecidableEq, Repr

/-- Source: `tryke_types::TestOutcome`. -/
inductive TestOutcome where
  | passed
  | failed (message : String) (assertions : List Assertion)
  | skipped (reason : Option String)
deriving DecidableEq, Repr

/-- Source: `tryke_types::TestResult` — `duration` in nanoseconds (`std::time::Duration`). -/
structure TestResult where
  test : TestItem
  outcome : TestOutcome
  duration : Nat
  stdout : String
  stderr : String
deriving DecidableEq, Repr

/-- Source: `tryke_types::RunSummary` — `duration` in nanoseconds. -/
structure RunSummary where
  passed : Nat
  failed : Nat
  skipped : Nat
  duration : Nat
deriving DecidableEq, Repr

/-! ## Discovery (`crates/tryke_discovery/src/lib.rs`) -/

/-- Source: `src_text`: the verbatim source slice `source[start..end]`
(characters standing for bytes). -/
def src_text (source : String) (range : Nat × Nat) : String :=
  String.mk ((source.data.drop range.1).take (range.2 - range.1))

/-- Source: `is_locally_defined` (lib.rs:40-51): is `nm` redefined at module top
level by a function/class definition, a plain assignment, or an annotated
assignment? -/
def is_locally_defined (nm : String) (body : List PyStmt) : Bool :=
  body.any fun stmt =>
    match stmt with
    | .functionDef _ n _ _ => n == nm
    | .classDef _ n => n == nm
    | .assign _ targets =>
      targets.any fun t =>
        match t with
        | .name _ n => n == nm
        | _ => false
    | .annAssign _ t =>
      match t with
      | .name _ n => n == nm
      | _ => false
    | _ => false

/-- Source: `is_tryke_test_decorator` (lib.rs:53-63).  Note that the attribute arm
demands the owner to be the bare name `"tryke"` exactly. -/
def is_tryke_test_decorator (expr : PyExpr) (body : List PyStmt) : Bool :=
  match expr with
  | .attribute _ v attr =>
    attr == "test" &&
      (match v with
       | .name _ n => n == "tryke"
       | _ => false)
  | .name _ n => n == "test" && !(is_locally_defined "test" body)
  | .call _ f _ _ => is_tryke_test_decorator f body
  | _ => false

/-- The `name=` keyword scan shared verbatim by `extract_decorator_name`
(lib.rs:69-75) and `extract_expect_call_info` (lib.rs:114-125): the first
keyword named `name` whose value is a string literal. -/
def name_keyword_literal (keywords : List (Option String × PyExpr)) :
    Option String :=
  keywords.findSome? fun kw =>
    if kw.1 == some "name" then
      match kw.2 with
      | .stringLit _ s => some s
      | _ => none
    else none

/-- Source: `extract_decorator_name` (lib.rs:65-82): for a call-form decorator, a
`name=` keyword whose value is a string literal, else the first positional
argument when it is a string literal, else `none`; `none` for non-calls. -/
def extract_decorator_name (expr : PyExpr) : Option String :=
  match expr with
  | .call _ _ args keywords =>
    match name_keyword_literal keywords with
    | some s => some s
    | none =>
      match args.head? with
      | some (.stringLit _ s) => some s
      | _ => none
  | _ => none

/-- Source: `extract_docstring` (lib.rs:84-92): trimmed first line of a leading
string-literal expression statement. -/
def extract_docstring (body : List PyStmt) : Option String :=
  match body.head? with
  | some (.exprStmt _ (.stringLit _ text)) =>
    some (((text.splitOn "\n").headD "").trim)
  | _ => none

/-- Source: `extract_expect_call_info` (lib.rs:100-134), taking the fields of the
entry `ExprCall`.  Recognizes `expect` as a bare name or as the final
attribute of any attribute access; demands 1 or 2 positional arguments
(`call.arguments.args.len()` — keywords are not counted); returns the
verbatim subject text and the optional label (`name=` string-literal keyword
first, else a second positional string literal). -/
def extract_expect_call_info (func : PyExpr) (args : List PyExpr)
    (keywords : List (Option String × PyExpr)) (source : String) :
    Option (String × Option String) :=
  let is_expect :=
    match func with
    | .name _ n => n == "expect"
    | .attribute _ _ attr => attr == "expect"
    | _ => false
  match args, is_expect with
  | a0 :: rest, true =>
    if (a0 :: rest).length > 2 then none
    else
      let subject := src_text source a0.range
      let label :=
        (name_keyword_literal keywords).orElse fun _ =>
          match rest.head? with
          | some (.stringLit _ s) => some s
          | _ => none
      some (subject, label)
  | _, _ => none

/-- Source: `try_extract_assertion` (lib.rs:136-174), taking the fields of the outer
`ExprCall`.  The outer call's target must be an attribute access whose
receiver is either the entry call directly or a `not_` attribute wrapping
it.  `lineIdx` models `LineIndex::line_index(..).get()`; the
`u32::try_from(..).unwrap_or(0)` clamp is applied. -/
def try_extract_assertion (range : Nat × Nat) (func : PyExpr)
    (args : List PyExpr) (source : String) (lineIdx : Nat → Nat) :
    Option ExpectedAssertion :=
  match func with
  | .attribute _ value matcher =>
    let info : Option (String × Bool × Option String) :=
      match value with
      | .call _ f2 args2 kws2 =>
        (extract_expect_call_info f2 args2 kws2 source).map fun p =>
          (p.1, false, p.2)
      | .attribute _ v2 a2 =>
        if a2 == "not_" then
          match v2 with
          | .call _ f2 args2 kws2 =>
            (extract_expect_call_info f2 args2 kws2 source).map fun p =>
              (p.1, true, p.2)
          | _ => none
        else none
      | _ => none
    info.map fun p =>
      { subject := p.1
        matcher := matcher
        negated := p.2.1
        args := args.map fun a => src_text source a.range
        line := (fun n => if n < 2 ^ 32 then n else 0) (lineIdx range.1)
        label := p.2.2 }
  | _ => none

mutual

/-- Source: `collect_assertions_from_expr` (lib.rs:176-195): only call expressions
are inspected; on a recognized assertion the result is emitted and then the
outer call's positional arguments are scanned; otherwise the call target and
the positional arguments are scanned.  Keyword values are never scanned. -/
def collect_assertions_from_expr (source : String) (lineIdx : Nat → Nat) :
    PyExpr → List ExpectedAssertion
  | .call r f args _ =>
    match try_extract_assertion r f args source lineIdx with
    | some a => a :: collect_assertions_from_exprs source lineIdx args
    | none =>
      collect_assertions_from_expr source lineIdx f ++
        collect_assertions_from_exprs source lineIdx args
  | _ => []

/-- The `for arg in &call.arguments.args` loops of
`collect_assertions_from_expr`, over a list of expressions in order. -/
def collect_assertions_from_exprs (source : String) (lineIdx : Nat → Nat) :
    List PyExpr → List ExpectedAssertion
  | [] => []
  | e :: es =>
    collect_assertions_from_expr source lineIdx e ++
      collect_assertions_from_exprs source lineIdx es

end

mutual

/-- Source: `collect_assertions_from_stmt` (lib.rs:197-251).  Note the exact
traversal: `if` scans its test, body and elif/else clauses; `for`/`while`
scan body and orelse only (not the loop test/iterable); `with` scans its
body only; `try` scans body, orelse and finalbody (not the handlers);
everything else contributes nothing. -/
def collect_assertions_from_stmt (source : String) (lineIdx : Nat → Nat) :
    PyStmt → List ExpectedAssertion
  | .exprStmt _ v => collect_assertions_from_expr source lineIdx v
  | .ret _ v =>
    match v with
    | some e => collect_assertions_from_expr source lineIdx e
    | none => []
  | .ifStmt _ test body clauses =>
    collect_assertions_from_expr source lineIdx test ++
      (collect_assertions_from_stmts source lineIdx body ++
        collect_assertions_from_clauses source lineIdx clauses)
  | .forStmt _ body orelse =>
    collect_assertions_from_stmts source lineIdx body ++
      collect_assertions_from_stmts source lineIdx orelse
  | .whileStmt _ body orelse =>
    collect_assertions_from_stmts source lineIdx body ++
      collect_assertions_from_stmts source lineIdx orelse
  | .withStmt _ body => collect_assertions_from_stmts source lineIdx body
  | .tryStmt _ body orelse finalbody =>
    collect_assertions_from_stmts source lineIdx body ++
      (collect_assertions_from_stmts source lineIdx orelse ++
        collect_assertions_from_stmts source lineIdx finalbody)
  | _ => []

/-- Inner statement loops of `collect_assertions_from_stmt`, in order. -/
def collect_assertions_from_stmts (source : String) (lineIdx : Nat → Nat) :
    List PyStmt → List ExpectedAssertion
  | [] => []
  | s :: ss =>
    collect_assertions_from_stmt source lineIdx s ++
      collect_assertions_from_stmts source lineIdx ss

/-- The elif/else clause loop of the `Stmt::If` arm: each clause scans its
optional test then its body. -/
def collect_assertions_from_clauses (source : String) (lineIdx : Nat → Nat) :
    List (Option PyExpr × List PyStmt) → List ExpectedAssertion
  | [] => []
  | c :: cs =>
    (match c.1 with
      | some t => collect_assertions_from_expr source lineIdx t
      | none => []) ++
      (collect_assertions_from_stmts source lineIdx c.2 ++
        collect_assertions_from_clauses source lineIdx cs)

end

/-- Source: `extract_expected_assertions` (lib.rs:253-263): fold the statement
collector over the test body, in order. -/
def extract_expected_assertions (body : List PyStmt) (source : String)
    (lineIdx : Nat → Nat) : List ExpectedAssertion :=
  collect_assertions_from_stmts source lineIdx body

/-! ## Files and `discover` -/

/-- One candidate source file as `parse_tests_from_file` consumes it.
`source = none` models an unreadable file (`fs::read_to_string` error);
`parsed` models the outcome of the external `ruff` parser `parse_module`
(`none` is a parse error); `lineIdx` models the external
`LineIndex::from_source_text(source)` as character offset to 1-based line. -/
structure PyFile where
  path : String
  source : Option String
  parsed : Option (List PyStmt)
  lineIdx : Nat → Nat

/-- Models `Path::strip_prefix(root).unwrap_or(file)` for slash-separated paths:
remove the root component prefix together with its trailing separator. -/
def stripRoot (root p : String) : String :=
  if (root ++ "/").data.isPrefixOf p.data then
    String.mk (p.data.drop (root.data.length + 1))
  else if root.data.isPrefixOf p.data then
    String.mk (p.data.drop root.data.length)
  else p

/-- Models `with_extension("")`: drop the final `.ext` of the last path component,
when the last component has a dot. -/
def dropExtension (p : String) : String :=
  let r := p.data.reverse
  if (r.takeWhile (fun c => c ≠ '/')).contains '.' then
    String.mk (((r.dropWhile (fun c => c ≠ '.')).drop 1).reverse)
  else p

/-- Source: `path_to_module` (lib.rs:30-38): root-relative path, extension stripped,
separators become dots. -/
def path_to_module (root file : String) : String :=
  String.mk ((dropExtension (stripRoot root file)).data.map fun c =>
    if c == '/' then '.' else c)

/-- The display-name expression of `parse_tests_from_file` (lib.rs:283-288):
the first classifying decorator's extracted name, else the docstring. -/
def test_display_name (decoratorList : List PyExpr) (modBody fbody : List PyStmt) :
    Option String :=
  ((decoratorList.find? fun d => is_tryke_test_decorator d modBody).bind
    extract_decorator_name).orElse fun _ => extract_docstring fbody

/-- Source: `parse_tests_from_file` (lib.rs:265-307).  An unreadable or unparseable
file yields `[]`; otherwise every top-level function definition carrying at
least one tryke test decorator becomes a `TestItem`, in definition order. -/
def parse_tests_from_file (root : String) (file : PyFile) : List TestItem :=
  match file.source with
  | none => []
  | some source =>
    match file.parsed with
    | none => []
    | some body =>
      body.filterMap fun stmt =>
        match stmt with
        | .functionDef r nm decoratorList fbody =>
          if decoratorList.any (fun d => is_tryke_test_decorator d body) then
            some
              { name := nm
                module_path := path_to_module root file.path
                file_path := some (stripRoot root file.path)
                line_number :=
                  (fun n => if n < 2 ^ 32 then some n else none)
                    (file.lineIdx r.1)
                display_name := test_display_name decoratorList body fbody
                expected_assertions :=
                  extract_expected_assertions fbody source file.lineIdx }
          else none
        | _ => none

/-- Byte-lexicographic comparison on character lists, modelling the `Ord`
used by `Vec::<PathBuf>::sort`. -/
def listLe : List Char → List Char → Bool
  | [], _ => true
  | _ :: _, [] => false
  | a :: as_, b :: bs =>
    if a < b then true
    else if b < a then false
    else listLe as_ bs

/-- The sort order of `files.sort()` in `discover`, on file paths. -/
def pathLe (f g : PyFile) : Prop := listLe f.path.data g.path.data = true

instance : DecidableRel pathLe := fun f g =>
  inferInstanceAs (Decidable (listLe f.path.data g.path.data = true))

/-- Source: `discover` (lib.rs:310-319) with the file system made explicit: the
candidate files (in arbitrary enumeration order) are sorted by path
(`files.sort()` is a stable sort, modelled by insertion sort, which computes
the same function) and each file's items are concatenated in that order. -/
def discover (root : String) (files : List PyFile) : List TestItem :=
  (List.insertionSort pathLe files).flatMap fun f =>
    parse_tests_from_file root f

/-! ## Diagnostic renderer (`crates/tryke_reporter/src/diagnostic.rs`) -/

/-- Modelled from the spec: the framed block rendered by miette's
`GraphicalReportHandler` for one assertion (§4.6) — the handler is an
external crate, not code of this repository.  The source name
(`file.unwrap_or("<unknown>")`, diagnostic.rs:53) and the label text
`"expected <expected>, received <received>"` (diagnostic.rs:55-58) are built
in the repository; the frame shows the expression as a one-line snippet with
the sub-range `[span_offset, span_offset + span_length)` highlighted and the
label attached. -/
def render_report (file : Option String) (a : Assertion) : String :=
  let source_name := file.getD "<unknown>"
  let label_text := "expected " ++ a.expected ++ ", received " ++ a.received
  "  × assertion failed\n   ╭─[" ++ source_name ++ "]\n 1 │ " ++
    a.expression ++ "\n   · " ++
    String.mk (List.replicate a.span_offset ' ') ++
    String.mk (List.replicate a.span_length '─') ++
    " " ++ label_text ++ "\n   ╰────\n"

/-- Source: `render_assertions` (diagnostic.rs:42-80): empty input appends nothing;
otherwise one rendered block per assertion followed by the tally line
`"  <failed>/<total> assertions failed"` — the `failed` counter increments
once per assertion, so it equals the total. -/
def render_assertions (file : Option String) (assertions : List Assertion) :
    String :=
  if assertions.isEmpty then ""
  else
    String.join (assertions.map fun a => render_report file a) ++
      "  " ++ toString assertions.length ++ "/" ++
      toString assertions.length ++ " assertions failed\n"

/-! ## Run driver (`crates/tryke/src/main.rs`) -/

/-- The per-result counting loop of `run_test` (main.rs:62-73). -/
def run_test_counts (results : List TestResult) : Nat × Nat × Nat :=
  results.foldl
    (fun acc r =>
      match r.outcome with
      | .passed => (acc.1 + 1, acc.2.1, acc.2.2)
      | .failed _ _ => (acc.1, acc.2.1 + 1, acc.2.2)
      | .skipped _ => (acc.1, acc.2.1, acc.2.2 + 1))
    (0, 0, 0)

/-- The `RunSummary` that `run_test` passes to `on_run_complete`
(main.rs:75-80): outcome counts folded over the results, and `duration`
taken from `start.elapsed()` — the wall-clock time of the whole run, made
an explicit `elapsed` input here since the clock is external. -/
def run_test_summary (results : List TestResult) (elapsed : Nat) :
    RunSummary :=
  { passed := (run_test_counts results).1
    failed := (run_test_counts results).2.1
    skipped := (run_test_counts results).2.2
    duration := elapsed }

/-! ## Dot backend (`crates/tryke_reporter/src/dot.rs`)

Terminal styling by `owo_colors` (an external crate) is modelled as SGR
escape wrapping; the escape sequences contain no letter besides `m` and in
particular none of the glyph characters. -/

def ansiWrap (code s : String) : String :=
  "\x1b[" ++ code ++ "m" ++ s ++ "\x1b[0m"

/-- The glyph chosen by `DotReporter::on_test_complete` (dot.rs:57-65):
`.` green for pass, `F` red for fail, `s` yellow dimmed for skip. -/
def dotGlyph (o : TestOutcome) : String :=
  match o with
  | .passed => ansiWrap "32" "."
  | .failed _ _ => ansiWrap "31" "F"
  | .skipped _ => ansiWrap "2" (ansiWrap "33" "s")

/-- Everything `DotReporter::on_test_complete` writes over a run, in
completion order (one glyph per completed test, no separators). -/
def dot_test_output (results : List TestResult) : String :=
  String.join (results.map fun r => dotGlyph r.outcome)

/-- One write of the dot backend, at the granularity of its callbacks;
the run-complete summary block (dot.rs:67-98) keeps its data structured. -/
inductive DotChunk where
  | header
  | glyph (s : String)
  | summaryBlock (summary : RunSummary)
deriving DecidableEq, Repr

/-! ## Text backend (`crates/tryke_reporter/src/text.rs`) -/

/-- Source: `text::Verbosity`. -/
inductive Verbosity where
  | quiet
  | normal
  | verbose
deriving DecidableEq, Repr

def isQuiet : Verbosity → Bool
  | .quiet => true
  | _ => false

def isVerbose : Verbosity → Bool
  | .verbose => true
  | _ => false

/-- One line written by the text backend.  Formatting that the claims never
inspect (colors, the `format_duration` rendering of elapsed time, the
version header text) is kept structured: durations stay as nanosecond
counts. -/
inductive TextLine where
  | versionHeader
  | blankLine
  | fileHeader (path : String)
  | passLine (display : String) (durationNanos : Nat)
  | failLine (display : String) (durationNanos : Nat)
  | skipLine (display : String)
  | assertLine (failed : Bool) (text : String)
  | diagnosticsOut (text : String)
  | collectItemLine (display : String)
  | collectCount (n : Nat)
  | passCount (n : Nat)
  | failCount (n : Nat)
  | skipCount (n : Nat)
  | ranLine (total : Nat) (durationNanos : Nat)
deriving DecidableEq, Repr

/-- The per-assertion text of `write_expected_assertions` (text.rs:82-88):
the label when present, else the reconstructed
`expect(<subject>).[not_.]<matcher>(<args>)` rendering. -/
def expected_assertion_text (a : ExpectedAssertion) : String :=
  let not_part := if a.negated then "not_." else ""
  let args_str := String.intercalate ", " a.args
  let assertion :=
    "expect(" ++ a.subject ++ ")." ++ not_part ++ a.matcher ++
      "(" ++ args_str ++ ")"
  a.label.getD assertion

/-- Source: `write_expected_assertions` (text.rs:74-95): one line per expected
assertion of the test; the line carries the failed marker exactly when the
assertion's line is among the runtime failure lines of a `Failed` outcome. -/
def write_expected_assertions (result : TestResult) : List TextLine :=
  let failed_lines : List Nat :=
    match result.outcome with
    | .failed _ assertions => assertions.map fun a => a.line
    | _ => []
  result.test.expected_assertions.map fun a =>
    .assertLine (failed_lines.contains a.line) (expected_assertion_text a)

/-- The file-change block of `TextReporter::on_test_complete`
(text.rs:118-129): when the completed test's file differs from the
previously seen one, a separating blank line (if a file had been seen) and
the new file's header line, both suppressed in quiet mode. -/
def text_header_lines (verbosity : Verbosity)
    (current_file file : Option String) : List TextLine :=
  if file ≠ current_file then
    (if current_file.isSome && !isQuiet verbosity then [.blankLine]
     else []) ++
      (match file with
       | some path => if !isQuiet verbosity then [.fileHeader path] else []
       | none => [])
  else []

/-- The lines `TextReporter::on_test_complete` (text.rs:117-183) writes for
one result, given the verbosity and the previously seen file. -/
def text_on_test_complete_lines (verbosity : Verbosity)
    (current_file : Option String) (result : TestResult) : List TextLine :=
  let file := result.test.file_path
  let headerLines : List TextLine :=
    text_header_lines verbosity current_file file
  let display := result.test.display_name.getD result.test.name
  let bodyLines : List TextLine :=
    match result.outcome with
    | .passed =>
      if !isQuiet verbosity then
        [.passLine display result.duration] ++
          (if isVerbose verbosity then write_expected_assertions result
           else [])
      else []
    | .failed _ assertions =>
      [.failLine display result.duration] ++
        (if isVerbose verbosity then write_expected_assertions result
         else []) ++
        (if !assertions.isEmpty then
          [.diagnosticsOut (render_assertions result.test.file_path assertions)]
         else [])
    | .skipped _ =>
      if !isQuiet verbosity then [.skipLine display] else []
  headerLines ++ bodyLines

/-- The `current_file` state after `TextReporter::on_test_complete`. -/
def text_on_test_complete_file (current_file : Option String)
    (result : TestResult) : Option String :=
  if result.test.file_path ≠ current_file then result.test.file_path
  else current_file

/-- The grouped listing loop of `TextReporter::on_collect_complete`
(text.rs:193-207). -/
def text_collect_loop (current : Option String) :
    List TestItem → List TextLine
  | [] => []
  | t :: ts =>
    let file := t.file_path
    let headerLines : List TextLine :=
      if file ≠ current then
        (if current.isSome then [.blankLine] else []) ++
          (match file with
           | some path => [.fileHeader path]
           | none => [])
      else []
    headerLines ++ [.collectItemLine (t.display_name.getD t.name)] ++
      text_collect_loop (if file ≠ current then file else current) ts

/-- Source: `TextReporter::on_collect_complete` (text.rs:185-210). -/
def text_on_collect_complete_lines (tests : List TestItem) : List TextLine :=
  [.versionHeader, .blankLine] ++ text_collect_loop none tests ++
    [.blankLine, .collectCount tests.length]

/-- Source: `TextReporter::on_run_complete` (text.rs:212-242): blank line, pass
count, fail and skip counts only when nonzero, and the `Ran N tests` line. -/
def text_on_run_complete_lines (summary : RunSummary) : List TextLine :=
  [.blankLine, .passCount summary.passed] ++
    (if summary.failed > 0 then [.failCount summary.failed] else []) ++
    (if summary.skipped > 0 then [.skipCount summary.skipped] else []) ++
    [.ranLine (summary.passed + summary.failed + summary.skipped)
      summary.duration]

/-- The mutable state of a `TextReporter`. -/
structure TextState where
  out : List TextLine
  current_file : Option String
  verbosity : Verbosity

/-! ## JSON backend (`crates/tryke_reporter/src/json.rs`) -/

/-- One emitted JSON-lines event; serde serialization (external) is kept
structured, with the `event` discriminator as the constructor. -/
inductive JsonEvent where
  | run_start (tests : List TestItem)
  | test_complete (result : TestResult)
  | run_complete (summary : RunSummary)
  | collect_complete (tests : List TestItem)
deriving DecidableEq, Repr

/-! ## JUnit backend (`crates/tryke_reporter/src/junit.rs`) -/

/-- Source: `xml_escape` (junit.rs:41-54). -/
def xml_escape (s : String) : String :=
  String.join (s.data.map fun ch =>
    match ch with
    | '&' => "&amp;"
    | '<' => "&lt;"
    | '>' => "&gt;"
    | '"' => "&quot;"
    | '\'' => "&apos;"
    | c => String.mk [c])

inductive JUnitCaseStatus where
  | passedCase
  | failedCase (escapedMessage : String)
  | skippedCase
deriving DecidableEq, Repr

/-- One `<testcase>` element (attributes escaped; the `%.3f` time
formatting kept as nanoseconds). -/
structure JUnitCase where
  caseName : String
  classname : String
  durationNanos : Nat
  status : JUnitCaseStatus
deriving DecidableEq, Repr

/-- The `<testsuite>` element emitted by `JUnitReporter::on_run_complete`. -/
structure JUnitSuite where
  suiteName : String
  tests : Nat
  failures : Nat
  skipped : Nat
  durationNanos : Nat
  cases : List JUnitCase
deriving DecidableEq, Repr

/-- The body of `JUnitReporter::on_run_complete` (junit.rs:63-113), over the
buffered results. -/
def junit_testsuite (buffered : List TestResult) (summary : RunSummary) :
    JUnitSuite :=
  { suiteName := "tryke"
    tests := summary.passed + summary.failed + summary.skipped
    failures := summary.failed
    skipped := summary.skipped
    durationNanos := summary.duration
    cases := buffered.map fun result =>
      { caseName := xml_escape (result.test.display_name.getD result.test.name)
        classname := xml_escape result.test.module_path
        durationNanos := result.duration
        status :=
          match result.outcome with
          | .passed => .passedCase
          | .failed message _ => .failedCase (xml_escape message)
          | .skipped _ => .skippedCase } }

/-- The mutable state of a `JUnitReporter`: the buffered results and the
suite emitted at run completion. -/
structure JUnitState where
  results : List TestResult
  output : Option JUnitSuite

/-! ## The Reporter contract and the four backends

`reporter.rs:3-7` declares the trait with the three run-lifecycle
callbacks; `text.rs` and `json.rs` additionally define an
`on_collect_complete` method in their `impl Reporter for ..` blocks (the
method `main.rs:87` invokes for `--collect-only` runs), while `dot.rs` and
`junit.rs` define no such method.  A backend's callback set is therefore a
record with the three run callbacks total and `on_collect_complete`
optional: `none` records that the backend's impl defines no collect
callback. -/

structure ReporterCallbacks (S : Type) where
  on_run_start : S → List TestItem → S
  on_test_complete : S → TestResult → S
  on_run_complete : S → RunSummary → S
  on_collect_complete : Option (S → List TestItem → S)

/-- Source: `impl Reporter for DotReporter` (dot.rs:46-99): version header at run
start, one glyph per completion, summary block at run completion.  No
`on_collect_complete` appears in dot.rs. -/
def dotReporter : ReporterCallbacks (List DotChunk) :=
  { on_run_start := fun out _tests => out ++ [.header]
    on_test_complete := fun out r => out ++ [.glyph (dotGlyph r.outcome)]
    on_run_complete := fun out s => out ++ [.summaryBlock s]
    on_collect_complete := none }

/-- Source: `impl Reporter for TextReporter` (text.rs:106-243), including its
`on_collect_complete`. -/
def textReporter : ReporterCallbacks TextState :=
  { on_run_start := fun st _tests =>
      { st with out := st.out ++ [.versionHeader, .blankLine] }
    on_test_complete := fun st r =>
      { st with
          out := st.out ++
            text_on_test_complete_lines st.verbosity st.current_file r
          current_file := text_on_test_complete_file st.current_file r }
    on_run_complete := fun st s =>
      { st with out := st.out ++ text_on_run_complete_lines s }
    on_collect_complete := some fun st tests =>
      { st with out := st.out ++ text_on_collect_complete_lines tests } }

/-- Source: `impl Reporter for JSONReporter` (json.rs:68-96), including its
`on_collect_complete`. -/
def jsonReporter : ReporterCallbacks (List JsonEvent) :=
  { on_run_start := fun out tests => out ++ [.run_start tests]
    on_test_complete := fun out r => out ++ [.test_complete r]
    on_run_complete := fun out s => out ++ [.run_complete s]
    on_collect_complete := some fun out tests =>
      out ++ [.collect_complete tests] }

/-- Source: `impl Reporter for JUnitReporter` (junit.rs:56-114): run start ignored,
completions buffered, suite emitted at run completion.  No
`on_collect_complete` appears in junit.rs. -/
def junitReporter : ReporterCallbacks JUnitState :=
  { on_run_start := fun st _tests => st
    on_test_complete := fun st r => { st with results := st.results ++ [r] }
    on_run_complete := fun st s =>
      { st with output := some (junit_testsuite st.results s) }
    on_collect_complete := none }

/-- Is a text line an expected-assertion line? -/
def isAssertLine : TextLine → Bool
  | .assertLine _ _ => true
  | _ => false

/-! ## Range consistency

`ruff` guarantees that a node's range contains its children's ranges and
that sibling ranges appear in source order.  The extraction theorems about
source ordering assume exactly that, stated as the executable predicates
below.  Only the fields the collectors traverse are constrained. -/

/-- Checks that `r` lies within `outer`. -/
def rangeWithin (r outer : Nat × Nat) : Bool :=
  decide (outer.1 ≤ r.1) && decide (r.2 ≤ outer.2)

mutual

/-- Range consistency of an expression: children lie within the parent and
the call target precedes the positional arguments, which appear in order. -/
def wfExpr : PyExpr → Bool
  | .call r f args _ =>
    decide (r.1 ≤ r.2) && rangeWithin f.range r && wfExpr f &&
      wfExprSeq f.range.2 r args
  | .attribute r v _ =>
    decide (r.1 ≤ r.2) && rangeWithin v.range r && wfExpr v
  | e => decide (e.range.1 ≤ e.range.2)

/-- A sibling list of expressions: each starts no earlier than the cursor
`after`, lies within `outer`, and is itself consistent. -/
def wfExprSeq (after : Nat) (outer : Nat × Nat) : List PyExpr → Bool
  | [] => true
  | e :: es =>
    decide (after ≤ e.range.1) && rangeWithin e.range outer && wfExpr e &&
      wfExprSeq e.range.2 outer es

end

/-- The range of any statement node (`Ranged::range` in ruff). -/
def PyStmt.range : PyStmt → Nat × Nat
  | .functionDef r _ _ _ => r
  | .classDef r _ => r
  | .assign r _ => r
  | .annAssign r _ => r
  | .exprStmt r _ => r
  | .ret r _ => r
  | .ifStmt r _ _ _ => r
  | .forStmt r _ _ => r
  | .whileStmt r _ _ => r
  | .withStmt r _ => r
  | .tryStmt r _ _ _ => r
  | .otherStmt r => r

/-- The position after the last statement of a sequence (the cursor when
the sequence is empty). -/
def stmtSeqEnd (after : Nat) : List PyStmt → Nat
  | [] => after
  | s :: ss => stmtSeqEnd (s.range).2 ss

/-- The cursor after one elif/else clause starting from `after`. -/
def clauseEnd (after : Nat) (c : Option PyExpr × List PyStmt) : Nat :=
  stmtSeqEnd (match c.1 with
    | some t => t.range.2
    | none => after) c.2

def clauseSeqEnd (after : Nat) : List (Option PyExpr × List PyStmt) → Nat
  | [] => after
  | c :: cs => clauseSeqEnd (clauseEnd after c) cs

mutual

/-- Range consistency of a statement, for the parts the assertion collector
traverses: traversed components lie within the statement's range and appear
in traversal order.  Statement kinds the collector ignores are
unconstrained. -/
def wfStmt : PyStmt → Bool
  | .exprStmt r v =>
    decide (r.1 ≤ r.2) && decide (r.1 ≤ v.range.1) && wfExpr v &&
      decide (v.range.2 ≤ r.2)
  | .ret r v =>
    match v with
    | some e =>
      decide (r.1 ≤ r.2) && decide (r.1 ≤ e.range.1) && wfExpr e &&
        decide (e.range.2 ≤ r.2)
    | none => decide (r.1 ≤ r.2)
  | .ifStmt r test body clauses =>
    decide (r.1 ≤ r.2) && decide (r.1 ≤ test.range.1) && wfExpr test &&
      wfStmtSeq test.range.2 body &&
      wfClauseSeq (stmtSeqEnd test.range.2 body) clauses &&
      decide (clauseSeqEnd (stmtSeqEnd test.range.2 body) clauses ≤ r.2)
  | .forStmt r body orelse =>
    decide (r.1 ≤ r.2) && wfStmtSeq r.1 body &&
      wfStmtSeq (stmtSeqEnd r.1 body) orelse &&
      decide (stmtSeqEnd (stmtSeqEnd r.1 body) orelse ≤ r.2)
  | .whileStmt r body orelse =>
    decide (r.1 ≤ r.2) && wfStmtSeq r.1 body &&
      wfStmtSeq (stmtSeqEnd r.1 body) orelse &&
      decide (stmtSeqEnd (stmtSeqEnd r.1 body) orelse ≤ r.2)
  | .withStmt r body =>
    decide (r.1 ≤ r.2) && wfStmtSeq r.1 body &&
      decide (stmtSeqEnd r.1 body ≤ r.2)
  | .tryStmt r body orelse finalbody =>
    decide (r.1 ≤ r.2) && wfStmtSeq r.1 body &&
      wfStmtSeq (stmtSeqEnd r.1 body) orelse &&
      wfStmtSeq (stmtSeqEnd (stmtSeqEnd r.1 body) orelse) finalbody &&
      decide
        (stmtSeqEnd (stmtSeqEnd (stmtSeqEnd r.1 body) orelse) finalbody ≤
          r.2)
  | s => decide ((PyStmt.range s).1 ≤ (PyStmt.range s).2)

/-- A statement sequence in source order, starting from the cursor `after`. -/
def wfStmtSeq (after : Nat) : List PyStmt → Bool
  | [] => true
  | s :: ss =>
    decide (after ≤ (s.range).1) && wfStmt s && wfStmtSeq (s.range).2 ss

/-- Elif/else clauses in source order: each clause's optional test precedes
its body. -/
def wfClauseSeq (after : Nat) : List (Option PyExpr × List PyStmt) → Bool
  | [] => true
  | c :: cs =>
    (match c.1 with
      | some t => decide (after ≤ t.range.1) && wfExpr t &&
          wfStmtSeq t.range.2 c.2
      | none => wfStmtSeq after c.2) &&
      wfClauseSeq (clauseEnd after c) cs

end

/-- A line index is monotone and (as ruff's `OneIndexed` values in any real
file) below `2 ^ 32`, so the `u32` clamp is the identity. -/
def LineIdxOk (lineIdx : Nat → Nat) : Prop :=
  (∀ a b : Nat, a ≤ b → lineIdx a ≤ lineIdx b) ∧ ∀ n : Nat, lineIdx n < 2 ^ 32

/-! ## Claims -/

/-- Claim C1, counterexample.  The claim states that a decorator that is a
qualified attribute access `owner.marker` classifies the function as a test
whenever `owner` is a bare name.  In the code the attribute arm of
`is_tryke_test_decorator` additionally demands `owner` to be the name
`tryke`: the decorator `other.test` — an attribute access named `test` on
the bare name `other`, in a file with no local shadowing at all — does not
classify, even though the bare decorator `test` does in the same file. -/
theorem C1_counterexample :
    is_tryke_test_decorator
      (.attribute (0, 10) (.name (0, 5) "other") "test") [] = false ∧
    is_tryke_test_decorator (.name (0, 4) "test") [] = true := by
  decide

/-- Claim C1, amended: a bare-name decorator `test` classifies exactly when
`test` is not locally redefined at module top level; the qualified
attribute access classifies — regardless of any shadowing — exactly when it
is `tryke.test` (attribute `test` on the bare name `tryke`), and any other
bare-name owner or attribute never classifies; a call-form decorator
classifies according to its call target. -/
theorem C1_amended (body : List PyStmt) (r r2 rc : Nat × Nat) :
    is_tryke_test_decorator (.name r "test") body =
        !is_locally_defined "test" body ∧
    is_tryke_test_decorator (.attribute r (.name r2 "tryke") "test") body =
        true ∧
    (∀ owner attr : String, owner ≠ "tryke" ∨ attr ≠ "test" →
      is_tryke_test_decorator (.attribute r (.name r2 owner) attr) body =
        false) ∧
    (∀ (f : PyExpr) (args : List PyExpr)
        (kws : List (Option String × PyExpr)),
      is_tryke_test_decorator (.call rc f args kws) body =
        is_tryke_test_decorator f body) := by
  refine ⟨?_, ?_, ?_, ?_⟩
  · simp [is_tryke_test_decorator]
  · simp [is_tryke_test_decorator]
  · intro owner attr h
    rcases h with h | h
    · simp [is_tryke_test_decorator, h]
    · simp [is_tryke_test_decorator, h]
  · intro f args kws
    rfl

/-- Witness for C1: in a file that shadows `test` by an assignment, an
attribute decorator with owner `owner` (not `tryke`) does not classify. -/
theorem C1_witness :
    is_tryke_test_decorator
      (.attribute (0, 10) (.name (0, 5) "owner") "test")
      [PyStmt.assign (0, 0) [PyExpr.name (0, 0) "test"]] = false :=
  (C1_amended [PyStmt.assign (0, 0) [PyExpr.name (0, 0) "test"]]
    (0, 10) (0, 5) (0, 0)).2.2.1 "owner" "test" (Or.inl (by decide))

/-- Claim C10: an assertion entry call is recognized both when its function
is the bare name `expect` and when it is any attribute access whose
attribute is named `expect`, with identical subject and label extraction
(the two forms yield literally the same `extract_expect_call_info` result),
and the attribute form with 1 or 2 positional arguments is recognized. -/
theorem C10_theorem (owner : PyExpr) (ra rn : Nat × Nat)
    (args : List PyExpr) (kws : List (Option String × PyExpr))
    (source : String) :
    extract_expect_call_info (.attribute ra owner "expect") args kws source =
      extract_expect_call_info (.name rn "expect") args kws source ∧
    (1 ≤ args.length → args.length ≤ 2 →
      (extract_expect_call_info (.attribute ra owner "expect") args kws
        source).isSome = true) := by
  constructor
  · cases args <;> rfl
  · intro h1 h2
    cases args with
    | nil => simp at h1
    | cons a0 rest =>
      simp only [extract_expect_call_info, beq_self_eq_true]
      rw [if_neg (by omega)]
      simp

/-- Witness for C10: `tryke.expect(x)` is recognized. -/
theorem C10_witness :
    (extract_expect_call_info
      (.attribute (0, 12) (.name (0, 5) "tryke") "expect")
      [PyExpr.name (13, 14) "x"] [] "tryke.expect(x)").isSome = true :=
  (C10_theorem (.name (0, 5) "tryke") (0, 12) (0, 6)
    [PyExpr.name (13, 14) "x"] [] "tryke.expect(x)").2 (by decide) (by decide)

/-- Claim C2: evaluation of the backends' callback sets.  The `Reporter`
trait (reporter.rs:3-7) declares only the three run-lifecycle callbacks;
the Dot and JUnit impl blocks define no `on_collect_complete`, while the
Text and JSON impl blocks do — even though `run_collect_only` (main.rs:87)
invokes `on_collect_complete` on whichever backend was selected, including
Dot and JUnit. -/
theorem C2_code_evaluation :
    dotReporter.on_collect_complete = none ∧
    junitReporter.on_collect_complete = none ∧
    textReporter.on_collect_complete.isSome = true ∧
    jsonReporter.on_collect_complete.isSome = true :=
  ⟨rfl, rfl, rfl, rfl⟩

/-- Unfolding: `(s ++ t).data` is the concatenation of the data. -/
theorem data_append (s t : String) : (s ++ t).data = s.data ++ t.data := rfl

/-- Claim C9: `render_assertions` appends nothing for an empty list; for a
non-empty list the one-line tally `"<n>/<total> assertions failed"` (with
its two-space indent and newline as written by diagnostic.rs:79) is a
suffix of the output, after the per-assertion blocks; and for the single
assertion with expected `"2"` and received `"3"` the output contains
`"2"`, `"3"` and the exact tally line `"1/1 assertions failed"`. -/
theorem C9_theorem :
    (∀ file : Option String, render_assertions file [] = "") ∧
    (∀ (file : Option String) (l : List Assertion), l ≠ [] →
      ("  " ++ toString l.length ++ "/" ++ toString l.length ++
        " assertions failed\n").data <:+ (render_assertions file l).data) ∧
    (let a : Assertion :=
      { expression := "assert_eq!(a, 2)", file := none, line := 10,
        span_offset := 14, span_length := 1, expected := "2",
        received := "3" }
     "2".data <:+: (render_assertions (some "tests/math.rs") [a]).data ∧
     "3".data <:+: (render_assertions (some "tests/math.rs") [a]).data ∧
     "1/1 assertions failed".data <:+:
       (render_assertions (some "tests/math.rs") [a]).data) := by
  refine ⟨?_, ?_, ?_⟩
  · intro file
    rfl
  · intro file l h
    rw [render_assertions, if_neg (by simpa using h)]
    simp only [data_append, List.append_assoc]
    exact List.suffix_append _ _
  · decide

/-- Witness for C9: the tally-suffix statement at a concrete one-element
list. -/
theorem C9_witness :
    ("  " ++
      toString
        ([({ expression := "e", file := none, line := 1, span_offset := 0,
             span_length := 1, expected := "2",
             received := "3" } : Assertion)].length) ++
      "/" ++
      toString
        ([({ expression := "e", file := none, line := 1, span_offset := 0,
             span_length := 1, expected := "2",
             received := "3" } : Assertion)].length) ++
      " assertions failed\n").data <:+
      (render_assertions none
        [({ expression := "e", file := none, line := 1, span_offset := 0,
            span_length := 1, expected := "2",
            received := "3" } : Assertion)]).data :=
  C9_theorem.2.1 none
    [({ expression := "e", file := none, line := 1, span_offset := 0,
        span_length := 1, expected := "2", received := "3" } : Assertion)]
    (by decide)

/-- Claim C4, counterexample.  With three results Passed/Failed/Skipped of
durations 12ms/5ms/0ms, the claim demands the summary duration to equal the
sum of the test durations (17ms); but `run_test` takes the summary duration
from `start.elapsed()`, the wall clock of the whole run, which is
independent of the per-test durations — here a clock reading of 42ns gives
a summary differing from the claimed one (the counts are 1/1/1 as
claimed). -/
theorem C4_counterexample :
    (let t : TestItem :=
      { name := "t", module_path := "m", file_path := none,
        line_number := none, display_name := none,
        expected_assertions := [] }
     let results : List TestResult :=
      [{ test := t, outcome := .passed, duration := 12000000, stdout := "",
         stderr := "" },
       { test := t, outcome := .failed "boom" [], duration := 5000000,
         stdout := "", stderr := "" },
       { test := t, outcome := .skipped none, duration := 0, stdout := "",
         stderr := "" }]
     run_test_summary results 42 =
        { passed := 1, failed := 1, skipped := 1, duration := 42 } ∧
      run_test_summary results 42 ≠
        { passed := 1, failed := 1, skipped := 1, duration := 17000000 }) := by
  decide

/-- Claim C4, amended: for any three completed tests with outcomes Passed,
Failed and Skipped (in that completion order) and any durations, the
`RunSummary` passed to `on_run_complete` is `{passed := 1, failed := 1,
skipped := 1}` with `duration` equal to the run's measured elapsed
wall-clock time (not the sum of the test durations), and the Dot backend's
per-test output contains exactly one `.`, one `F` and one `s`, in
completion order. -/
theorem C4_amended (elapsed d1 d2 d3 : Nat) (msg : String)
    (reason : Option String) (t1 t2 t3 : TestItem) :
    run_test_summary
        [{ test := t1, outcome := .passed, duration := d1, stdout := "",
           stderr := "" },
         { test := t2, outcome := .failed msg [], duration := d2,
           stdout := "", stderr := "" },
         { test := t3, outcome := .skipped reason, duration := d3,
           stdout := "", stderr := "" }] elapsed =
      { passed := 1, failed := 1, skipped := 1, duration := elapsed } ∧
    (dot_test_output
        [{ test := t1, outcome := .passed, duration := d1, stdout := "",
           stderr := "" },
         { test := t2, outcome := .failed msg [], duration := d2,
           stdout := "", stderr := "" },
         { test := t3, outcome := .skipped reason, duration := d3,
           stdout := "", stderr := "" }]).data.count '.' = 1 ∧
    (dot_test_output
        [{ test := t1, outcome := .passed, duration := d1, stdout := "",
           stderr := "" },
         { test := t2, outcome := .failed msg [], duration := d2,
           stdout := "", stderr := "" },
         { test := t3, outcome := .skipped reason, duration := d3,
           stdout := "", stderr := "" }]).data.count 'F' = 1 ∧
    (dot_test_output
        [{ test := t1, outcome := .passed, duration := d1, stdout := "",
           stderr := "" },
         { test := t2, outcome := .failed msg [], duration := d2,
           stdout := "", stderr := "" },
         { test := t3, outcome := .skipped reason, duration := d3,
           stdout := "", stderr := "" }]).data.count 's' = 1 ∧
    (dot_test_output
        [{ test := t1, outcome := .passed, duration := d1, stdout := "",
           stderr := "" },
         { test := t2, outcome := .failed msg [], duration := d2,
           stdout := "", stderr := "" },
         { test := t3, outcome := .skipped reason, duration := d3,
           stdout := "", stderr := "" }]).data.indexOf '.' <
      (dot_test_output
        [{ test := t1, outcome := .passed, duration := d1, stdout := "",
           stderr := "" },
         { test := t2, outcome := .failed msg [], duration := d2,
           stdout := "", stderr := "" },
         { test := t3, outcome := .skipped reason, duration := d3,
           stdout := "", stderr := "" }]).data.indexOf 'F' ∧
    (dot_test_output
        [{ test := t1, outcome := .passed, duration := d1, stdout := "",
           stderr := "" },
         { test := t2, outcome := .failed msg [], duration := d2,
           stdout := "", stderr := "" },
         { test := t3, outcome := .skipped reason, duration := d3,
           stdout := "", stderr := "" }]).data.indexOf 'F' <
      (dot_test_output
        [{ test := t1, outcome := .passed, duration := d1, stdout := "",
           stderr := "" },
         { test := t2, outcome := .failed msg [], duration := d2,
           stdout := "", stderr := "" },
         { test := t3, outcome := .skipped reason, duration := d3,
           stdout := "", stderr := "" }]).data.indexOf 's' :=
  ⟨rfl, rfl, rfl, rfl, of_decide_eq_true rfl, of_decide_eq_true rfl⟩

/-- Claim C3, counterexample.  Two divergences from the claim:
(1) in `expect(expect(x).to_equal(1), y, z).to_equal(2)` the entry call has
three arguments, so no assertion is produced — but the well-shaped
assertion `expect(x).to_equal(1)` nested inside the entry call's own
arguments is NOT extracted either (the whole extraction yields `[]`),
because descent stops at the attribute node holding the entry call; the
second conjunct shows the nested call alone is well-shaped and extractable.
(2) the argument count uses positional arguments only: in
`expect(a, b, name="c").to_equal(1)` the entry call has three arguments
counting positional and keyword together, yet an assertion IS produced. -/
theorem C3_counterexample :
    (let src1 := "expect(expect(x).to_equal(1), y, z).to_equal(2)"
     let entry2 : PyExpr :=
       .call (7, 16) (.name (7, 13) "expect") [.name (14, 15) "x"] []
     let nested : PyExpr :=
       .call (7, 28) (.attribute (7, 26) entry2 "to_equal")
         [.otherExpr (26, 27)] []
     let entry1 : PyExpr :=
       .call (0, 35) (.name (0, 6) "expect")
         [nested, .name (30, 31) "y", .name (33, 34) "z"] []
     let outer : PyExpr :=
       .call (0, 47) (.attribute (0, 44) entry1 "to_equal")
         [.otherExpr (45, 46)] []
     collect_assertions_from_expr src1 (fun _ => 1) outer = [] ∧
       collect_assertions_from_expr src1 (fun _ => 1) nested =
         [{ subject := "x", matcher := "to_equal", negated := false,
            args := ["1"], line := 1, label := none }]) ∧
    (let src2 := "expect(a, b, name=\"c\").to_equal(1)"
     let entry : PyExpr :=
       .call (0, 22) (.name (0, 6) "expect")
         [.name (7, 8) "a", .name (10, 11) "b"]
         [(some "name", .stringLit (18, 21) "c")]
     let outer : PyExpr :=
       .call (0, 34) (.attribute (0, 31) entry "to_equal")
         [.otherExpr (32, 33)] []
     collect_assertions_from_expr src2 (fun _ => 1) outer =
       [{ subject := "a", matcher := "to_equal", negated := false,
          args := ["1"], line := 1, label := some "c" }]) := by
  refine ⟨⟨?_, ?_⟩, ?_⟩ <;> decide

/-- Claim C3, amended: an entry call with zero or more than two POSITIONAL
arguments (keywords are not counted) is not recognized, extraction is total
(never fails), and extraction descends into the outer call's function and
positional-argument sub-expressions; descent stops at attribute nodes, so
an assertion nested inside the entry call's own arguments (which sit under
the attribute access) is not reached, while assertions nested inside the
outer matcher call's arguments are still extracted. -/
theorem C3_amended (source : String) (lineIdx : Nat → Nat)
    (entryFunc : PyExpr) (entryArgs : List PyExpr)
    (entryKws : List (Option String × PyExpr)) :
    (entryArgs.length = 0 ∨ entryArgs.length > 2 →
      extract_expect_call_info entryFunc entryArgs entryKws source = none) ∧
    (∀ (ro rc r2 : Nat × Nat) (matcher : String) (outerArgs : List PyExpr),
      entryArgs.length = 0 ∨ entryArgs.length > 2 →
      try_extract_assertion ro
        (.attribute r2 (.call rc entryFunc entryArgs entryKws) matcher)
        outerArgs source lineIdx = none) ∧
    (∀ (ro : Nat × Nat) (func : PyExpr) (outerArgs : List PyExpr)
        (outerKws : List (Option String × PyExpr)),
      try_extract_assertion ro func outerArgs source lineIdx = none →
      collect_assertions_from_expr source lineIdx
          (.call ro func outerArgs outerKws) =
        collect_assertions_from_expr source lineIdx func ++
          collect_assertions_from_exprs source lineIdx outerArgs) ∧
    (∀ (r : Nat × Nat) (v : PyExpr) (attr : String),
      collect_assertions_from_expr source lineIdx (.attribute r v attr) =
        []) := by
  have harity : entryArgs.length = 0 ∨ entryArgs.length > 2 →
      extract_expect_call_info entryFunc entryArgs entryKws source = none := by
    intro h
    rcases h with h | h
    · have he : entryArgs = [] := List.length_eq_zero.mp h
      subst he
      cases entryFunc <;> rfl
    · obtain ⟨a0, a1, a2, rest, rfl⟩ :
          ∃ a0 a1 a2 rest, entryArgs = a0 :: a1 :: a2 :: rest := by
        cases entryArgs with
        | nil => simp at h
        | cons a0 t0 =>
          cases t0 with
          | nil => simp at h
          | cons a1 t1 =>
            cases t1 with
            | nil => simp at h
            | cons a2 rest => exact ⟨a0, a1, a2, rest, rfl⟩
      rcases entryFunc with ⟨rn, n⟩ | ⟨ra, v, at2⟩ | ⟨rc, f, as2, ks⟩ |
        ⟨rs, s⟩ | rr
      · simp only [extract_expect_call_info]
        cases hb : (n == "expect") with
        | false => simp [hb]
        | true => simp [hb]
      · simp only [extract_expect_call_info]
        cases hb : (at2 == "expect") with
        | false => simp [hb]
        | true => simp [hb]
      · rfl
      · rfl
      · rfl
  refine ⟨harity, ?_, ?_, ?_⟩
  · intro ro rc r2 matcher outerArgs h
    rw [try_extract_assertion]
    rw [harity h]
    rfl
  · intro ro func outerArgs outerKws h
    rw [collect_assertions_from_expr, h]
  · intro r v attr
    rfl

/-- Witness for C3: a zero-argument `expect()` entry call is not
recognized. -/
theorem C3_witness :
    extract_expect_call_info (.name (0, 6) "expect") ([] : List PyExpr) []
      "expect().to_equal(1)" = none :=
  (C3_amended "expect().to_equal(1)" (fun _ => 1) (.name (0, 6) "expect")
    [] []).1 (Or.inl rfl)

/-- Header lines never contain expected-assertion lines. -/
theorem filter_isAssertLine_text_header (verbosity : Verbosity)
    (current_file file : Option String) :
    (text_header_lines verbosity current_file file).filter isAssertLine =
      [] := by
  rw [text_header_lines.eq_def]
  rcases file with _ | p <;> split_ifs <;> simp [isAssertLine]

/-- Expected-assertion lines are kept whole by the assert-line filter. -/
theorem filter_isAssertLine_write_expected (r : TestResult) :
    (write_expected_assertions r).filter isAssertLine =
      write_expected_assertions r := by
  have key : ∀ (l : List ExpectedAssertion) (fl : List Nat),
      (l.map fun a =>
        TextLine.assertLine (fl.contains a.line)
          (expected_assertion_text a)).filter isAssertLine =
        l.map fun a =>
          TextLine.assertLine (fl.contains a.line)
            (expected_assertion_text a) := by
    intro l fl
    induction l with
    | nil => rfl
    | cons a t ih => simp [isAssertLine, ih]
  rw [write_expected_assertions.eq_def]
  cases r.outcome <;> exact key _ _

/-- Claim C6, counterexample.  The claim demands one printed line per
expected assertion for EVERY test completion in verbose mode; but the
Skipped arm of `on_test_complete` never calls `write_expected_assertions`:
a skipped test with one expected assertion produces no expected-assertion
line at all. -/
theorem C6_counterexample :
    (let r : TestResult :=
      { test :=
          { name := "t", module_path := "m", file_path := none,
            line_number := none, display_name := none,
            expected_assertions :=
              [{ subject := "x", matcher := "to_equal", negated := false,
                 args := ["1"], line := 4, label := none }] },
        outcome := .skipped none, duration := 0, stdout := "",
        stderr := "" }
     (text_on_test_complete_lines .verbose none r).filter isAssertLine =
        [] ∧
      r.test.expected_assertions.length = 1) := by
  decide

/-- Claim C6, amended: in the Text backend's verbose mode, every Passed or
Failed completion prints exactly one line per expected assertion of the
test (a Skipped completion prints none), and an expected-assertion line
carries the failed glyph if and only if the outcome is Failed and the
expected assertion's line number occurs among the line numbers of the
runtime assertion list, otherwise the passed glyph. -/
theorem C6_amended (current_file : Option String) (r : TestResult) :
    (∀ reason, r.outcome = .skipped reason →
      (text_on_test_complete_lines .verbose current_file r).filter
        isAssertLine = []) ∧
    (r.outcome = .passed →
      (text_on_test_complete_lines .verbose current_file r).filter
        isAssertLine = write_expected_assertions r) ∧
    (∀ msg asserts, r.outcome = .failed msg asserts →
      (text_on_test_complete_lines .verbose current_file r).filter
        isAssertLine = write_expected_assertions r) ∧
    (∀ msg asserts, r.outcome = .failed msg asserts →
      write_expected_assertions r =
        r.test.expected_assertions.map fun a =>
          .assertLine ((asserts.map fun x => x.line).contains a.line)
            (expected_assertion_text a)) ∧
    (r.outcome = .passed →
      write_expected_assertions r =
        r.test.expected_assertions.map fun a =>
          .assertLine false (expected_assertion_text a)) := by
  refine ⟨?_, ?_, ?_, ?_, ?_⟩
  · intro reason h
    simp [text_on_test_complete_lines, h, List.filter_append,
      filter_isAssertLine_text_header, isQuiet, isAssertLine]
  · intro h
    simp [text_on_test_complete_lines, h, List.filter_append,
      filter_isAssertLine_text_header, filter_isAssertLine_write_expected,
      isQuiet, isVerbose, isAssertLine]
  · intro msg asserts h
    simp only [text_on_test_complete_lines, h, List.filter_append,
      filter_isAssertLine_text_header, filter_isAssertLine_write_expected,
      isQuiet, isVerbose, Bool.not_false, if_true]
    split <;>
      simp [isAssertLine, filter_isAssertLine_write_expected]
  · intro msg asserts h
    simp [write_expected_assertions, h]
  · intro h
    simp [write_expected_assertions, h, List.contains]

/-- Witness for C6: the skipped-completion statement at a concrete input. -/
theorem C6_witness :
    (text_on_test_complete_lines .verbose none
      { test :=
          { name := "t", module_path := "m", file_path := none,
            line_number := none, display_name := none,
            expected_assertions :=
              [{ subject := "x", matcher := "to_equal", negated := false,
                 args := ["1"], line := 4, label := none }] },
        outcome := .skipped none, duration := 0, stdout := "",
        stderr := "" }).filter isAssertLine = [] :=
  (C6_amended none
    { test :=
        { name := "t", module_path := "m", file_path := none,
          line_number := none, display_name := none,
          expected_assertions :=
            [{ subject := "x", matcher := "to_equal", negated := false,
               args := ["1"], line := 4, label := none }] },
      outcome := .skipped none, duration := 0, stdout := "",
      stderr := "" }).1 none rfl

/-- A keyword list with no `name=` string-literal keyword yields nothing. -/
theorem name_keyword_literal_eq_none
    (kws : List (Option String × PyExpr))
    (h : ∀ kw ∈ kws, kw.1 = some "name" →
      ∀ r2 s2, kw.2 ≠ PyExpr.stringLit r2 s2) :
    name_keyword_literal kws = none := by
  induction kws with
  | nil => rfl
  | cons kw t ih =>
    have hrest := ih fun kw2 hm => h kw2 (List.mem_cons_of_mem _ hm)
    simp only [name_keyword_literal, List.findSome?_cons] at hrest ⊢
    cases hc : (kw.1 == some "name") with
    | false => simpa [hc] using hrest
    | true =>
      have h1 : kw.1 = some "name" := by simpa using hc
      rcases hk2 : kw.2 with ⟨a, b⟩ | ⟨a, b, c⟩ | ⟨a, b, c, d⟩ |
        ⟨r2, s2⟩ | a
      · simpa [hc] using hrest
      · simpa [hc] using hrest
      · simpa [hc] using hrest
      · exact absurd hk2 (h kw (List.mem_cons_self _ _) h1 r2 s2)
      · simpa [hc] using hrest

/-- The first `name=` string-literal keyword wins, whatever follows. -/
theorem name_keyword_literal_first
    (pre post : List (Option String × PyExpr)) (rr : Nat × Nat) (s : String)
    (h : ∀ kw ∈ pre, kw.1 = some "name" →
      ∀ r2 s2, kw.2 ≠ PyExpr.stringLit r2 s2) :
    name_keyword_literal
      (pre ++ (some "name", PyExpr.stringLit rr s) :: post) = some s := by
  induction pre with
  | nil => simp [name_keyword_literal, List.findSome?_cons]
  | cons kw t ih =>
    have hrest := ih fun kw2 hm => h kw2 (List.mem_cons_of_mem _ hm)
    simp only [List.cons_append, name_keyword_literal,
      List.findSome?_cons] at hrest ⊢
    cases hc : (kw.1 == some "name") with
    | false => simpa [hc] using hrest
    | true =>
      have h1 : kw.1 = some "name" := by simpa using hc
      rcases hk2 : kw.2 with ⟨a, b⟩ | ⟨a, b, c⟩ | ⟨a, b, c, d⟩ |
        ⟨r2, s2⟩ | a
      · simpa [hc] using hrest
      · simpa [hc] using hrest
      · simpa [hc] using hrest
      · exact absurd hk2 (h kw (List.mem_cons_self _ _) h1 r2 s2)
      · simpa [hc] using hrest

/-- Claim C7: display-name precedence — the first `name=` string-literal
keyword on the classifying decorator call wins; else the first positional
argument when it is a string literal; else the trimmed first docstring
line; else absent (and a non-call decorator contributes no explicit name) —
and the mirrored label precedence on the assertion entry call: `name=`
string-literal keyword, else a second positional string literal, else
absent. -/
theorem C7_theorem (r rc : Nat × Nat) (f : PyExpr) (args : List PyExpr)
    (kws : List (Option String × PyExpr)) (modBody fbody : List PyStmt)
    (decoratorList : List PyExpr) (source : String) :
    (∀ pre post rr s,
      kws = pre ++ (some "name", PyExpr.stringLit rr s) :: post →
      (∀ kw ∈ pre, kw.1 = some "name" →
        ∀ r2 s2, kw.2 ≠ PyExpr.stringLit r2 s2) →
      extract_decorator_name (.call rc f args kws) = some s) ∧
    (name_keyword_literal kws = none →
      ∀ ra s rest, args = PyExpr.stringLit ra s :: rest →
      extract_decorator_name (.call rc f args kws) = some s) ∧
    (name_keyword_literal kws = none →
      (∀ ra s rest, args ≠ PyExpr.stringLit ra s :: rest) →
      extract_decorator_name (.call rc f args kws) = none) ∧
    (∀ nm, extract_decorator_name (.name r nm) = none) ∧
    (∀ v at2, extract_decorator_name (.attribute r v at2) = none) ∧
    (∀ d s,
      decoratorList.find? (fun d2 => is_tryke_test_decorator d2 modBody) =
        some d →
      extract_decorator_name d = some s →
      test_display_name decoratorList modBody fbody = some s) ∧
    (∀ d,
      decoratorList.find? (fun d2 => is_tryke_test_decorator d2 modBody) =
        some d →
      extract_decorator_name d = none →
      test_display_name decoratorList modBody fbody =
        extract_docstring fbody) ∧
    (decoratorList.find? (fun d2 => is_tryke_test_decorator d2 modBody) =
        none →
      test_display_name decoratorList modBody fbody =
        extract_docstring fbody) ∧
    (∀ rs rss text rest2,
      extract_docstring (.exprStmt rs (.stringLit rss text) :: rest2) =
        some (((text.splitOn "\n").headD "").trim)) ∧
    (∀ rn a0 restArgs pre post rr s,
      args = a0 :: restArgs → args.length ≤ 2 →
      kws = pre ++ (some "name", PyExpr.stringLit rr s) :: post →
      (∀ kw ∈ pre, kw.1 = some "name" →
        ∀ r2 s2, kw.2 ≠ PyExpr.stringLit r2 s2) →
      extract_expect_call_info (.name rn "expect") args kws source =
        some (src_text source a0.range, some s)) ∧
    (∀ rn a0 rb s, name_keyword_literal kws = none →
      args = [a0, PyExpr.stringLit rb s] →
      extract_expect_call_info (.name rn "expect") args kws source =
        some (src_text source a0.range, some s)) ∧
    (∀ rn a0, name_keyword_literal kws = none → args = [a0] →
      extract_expect_call_info (.name rn "expect") args kws source =
        some (src_text source a0.range, none)) ∧
    (∀ rn a0 a1, name_keyword_literal kws = none → args = [a0, a1] →
      (∀ rb s, a1 ≠ PyExpr.stringLit rb s) →
      extract_expect_call_info (.name rn "expect") args kws source =
        some (src_text source a0.range, none)) := by
  refine ⟨?_, ?_, ?_, ?_, ?_, ?_, ?_, ?_, ?_, ?_, ?_, ?_, ?_⟩
  · intro pre post rr s hk hclean
    subst hk
    simp only [extract_decorator_name]
    rw [name_keyword_literal_first pre post rr s hclean]
  · intro h ra s rest harg
    subst harg
    simp only [extract_decorator_name]
    rw [h]
    rfl
  · intro h hnot
    simp only [extract_decorator_name]
    rw [h]
    cases args with
    | nil => rfl
    | cons a0 rest =>
      rcases a0 with ⟨a, b⟩ | ⟨a, b, c⟩ | ⟨a, b, c, d⟩ | ⟨ra, s⟩ | a
      · rfl
      · rfl
      · rfl
      · exact absurd rfl (hnot ra s rest)
      · rfl
  · intro nm
    rfl
  · intro v at2
    rfl
  · intro d s hf he
    rw [test_display_name, hf]
    simp [he, Option.orElse]
  · intro d hf he
    rw [test_display_name, hf]
    simp [he, Option.orElse]
  · intro hf
    rw [test_display_name, hf]
    simp [Option.orElse]
  · intro rs rss text rest2
    rfl
  · intro rn a0 restArgs pre post rr s harg hlen hk hclean
    subst harg
    subst hk
    simp only [extract_expect_call_info, beq_self_eq_true]
    rw [if_neg (by omega)]
    rw [name_keyword_literal_first pre post rr s hclean]
    rfl
  · intro rn a0 rb s h harg
    subst harg
    simp only [extract_expect_call_info, beq_self_eq_true]
    rw [if_neg (by simp)]
    rw [h]
    rfl
  · intro rn a0 h harg
    subst harg
    simp only [extract_expect_call_info, beq_self_eq_true]
    rw [if_neg (by simp)]
    rw [h]
    rfl
  · intro rn a0 a1 h harg hnot
    subst harg
    simp only [extract_expect_call_info, beq_self_eq_true]
    rw [if_neg (by simp)]
    rw [h]
    rcases a1 with ⟨a, b⟩ | ⟨a, b, c⟩ | ⟨a, b, c, d⟩ | ⟨rb, s⟩ | a
    · rfl
    · rfl
    · rfl
    · exact absurd rfl (hnot rb s)
    · rfl

/-- Witness for C7: `@test("Y", name="X")` yields display name `X`. -/
theorem C7_witness :
    extract_decorator_name
      (.call (0, 20) (.name (0, 4) "test") [PyExpr.stringLit (5, 8) "Y"]
        [(some "name", PyExpr.stringLit (14, 17) "X")]) = some "X" :=
  (C7_theorem (0, 0) (0, 20) (.name (0, 4) "test")
    [PyExpr.stringLit (5, 8) "Y"]
    [(some "name", PyExpr.stringLit (14, 17) "X")] [] [] []
    "").1 [] [] (14, 17) "X" rfl (by simp)

/-- Files contributing no items can be dropped from a `flatMap` without
changing the result. -/
theorem flatMap_filter_ne_nil {α β : Type} (l : List α) (g : α → List β) :
    l.flatMap g = (l.filter fun a => !(g a).isEmpty).flatMap g := by
  induction l with
  | nil => rfl
  | cons a t ih =>
    simp only [List.flatMap_cons, List.filter_cons]
    cases hg : (g a).isEmpty with
    | true =>
      have hnil : g a = [] := by simpa using hg
      simp [hnil, ih]
    | false => simp [List.flatMap_cons, ih]

/-- Claim C8: an unreadable file (no source text) and an unparseable file
(no syntax tree) each contribute the empty item list, without any failure
(the function is total); and `discover` equals the concatenation over only
the contributing files, in sorted order — so a bad file never perturbs the
items of the other files. -/
theorem C8_theorem :
    (∀ (root path : String) (lineIdx : Nat → Nat)
        (parsed : Option (List PyStmt)),
      parse_tests_from_file root
        { path := path, source := none, parsed := parsed,
          lineIdx := lineIdx } = []) ∧
    (∀ (root path src : String) (lineIdx : Nat → Nat),
      parse_tests_from_file root
        { path := path, source := some src, parsed := none,
          lineIdx := lineIdx } = []) ∧
    (∀ (root : String) (files : List PyFile),
      discover root files =
        ((List.insertionSort pathLe files).filter fun f =>
          !(parse_tests_from_file root f).isEmpty).flatMap fun f =>
            parse_tests_from_file root f) := by
  refine ⟨?_, ?_, ?_⟩
  · intro root path lineIdx parsed
    rfl
  · intro root path src lineIdx
    rfl
  · intro root files
    rw [discover]
    exact flatMap_filter_ne_nil _ _

/-- Unfolding equation for `listLe` on two cons cells. -/
theorem listLe_cons (a b : Char) (as_ bs : List Char) :
    listLe (a :: as_) (b :: bs) =
      if a < b then true else if b < a then false else listLe as_ bs := rfl

theorem listLe_refl : ∀ l : List Char, listLe l l = true
  | [] => rfl
  | a :: as_ => by
    rw [listLe_cons, if_neg (lt_irrefl a), if_neg (lt_irrefl a)]
    exact listLe_refl as_

theorem listLe_trans : ∀ a b c : List Char, listLe a b = true →
    listLe b c = true → listLe a c = true
  | [], _, _, _, _ => rfl
  | _ :: _, [], _, h1, _ => by simp [listLe] at h1
  | _ :: _, _ :: _, [], _, h2 => by simp [listLe] at h2
  | a :: as_, b :: bs, c :: cs, h1, h2 => by
    rw [listLe_cons] at h1 h2 ⊢
    rcases lt_trichotomy a b with hab | rfl | hab
    · rcases lt_trichotomy b c with hbc | rfl | hbc
      · rw [if_pos (lt_trans hab hbc)]
      · rw [if_pos hab]
      · rw [if_neg (asymm hbc), if_pos hbc] at h2
        exact absurd h2 (by simp)
    · rw [if_neg (lt_irrefl a), if_neg (lt_irrefl a)] at h1
      rcases lt_trichotomy a c with hac | rfl | hac
      · rw [if_pos hac]
      · rw [if_neg (lt_irrefl a), if_neg (lt_irrefl a)] at h2 ⊢
        exact listLe_trans as_ bs cs h1 h2
      · rw [if_neg (asymm hac), if_pos hac] at h2
        exact absurd h2 (by simp)
    · rw [if_neg (asymm hab), if_pos hab] at h1
      exact absurd h1 (by simp)

theorem listLe_total : ∀ a b : List Char,
    (listLe a b || listLe b a) = true
  | [], _ => by simp [listLe]
  | _ :: _, [] => by simp [listLe]
  | a :: as_, b :: bs => by
    rw [listLe_cons, listLe_cons]
    rcases lt_trichotomy a b with hab | rfl | hab
    · simp [hab]
    · simpa [lt_irrefl] using listLe_total as_ bs
    · simp [hab, asymm hab]

instance : IsTrans PyFile pathLe :=
  ⟨fun _ _ _ h1 h2 => listLe_trans _ _ _ h1 h2⟩

instance : IsTotal PyFile pathLe :=
  ⟨fun f g => by
    rcases Bool.or_eq_true_iff.mp
      (listLe_total f.path.data g.path.data) with h | h
    · exact Or.inl h
    · exact Or.inr h⟩

/-- Dropping a common prefix preserves the byte order. -/
theorem listLe_append_left : ∀ r x y : List Char,
    listLe (r ++ x) (r ++ y) = listLe x y
  | [], _, _ => rfl
  | c :: r, x, y => by
    simp only [List.cons_append]
    rw [listLe_cons, if_neg (lt_irrefl c), if_neg (lt_irrefl c)]
    exact listLe_append_left r x y

/-- For a file strictly under the root, `stripRoot` drops exactly the
`root ++ "/"` prefix. -/
theorem stripRoot_data_of_prefix (root p : String)
    (h : (root ++ "/").data.isPrefixOf p.data = true) :
    ∃ s, p.data = (root ++ "/").data ++ s ∧ (stripRoot root p).data = s := by
  obtain ⟨s, hs⟩ := List.isPrefixOf_iff_prefix.mp h
  refine ⟨s, hs.symm, ?_⟩
  rw [stripRoot, if_pos h]
  show p.data.drop (root.data.length + 1) = s
  have hlen : root.data.length + 1 = (root ++ "/").data.length := by
    rw [data_append]
    simp
  rw [hlen, ← hs, List.drop_left]

/-- Monotonicity: `stripRoot` preserves order on paths under the root. -/
theorem stripRoot_mono (root : String) (p q : String)
    (hp : (root ++ "/").data.isPrefixOf p.data = true)
    (hq : (root ++ "/").data.isPrefixOf q.data = true)
    (h : listLe p.data q.data = true) :
    listLe (stripRoot root p).data (stripRoot root q).data = true := by
  obtain ⟨s, hsp, hsd⟩ := stripRoot_data_of_prefix root p hp
  obtain ⟨t, htq, htd⟩ := stripRoot_data_of_prefix root q hq
  rw [hsd, htd]
  rw [hsp, htq, listLe_append_left] at h
  exact h

/-- A list whose elements all share one key is a `≤`-chain under any
reflexive-on-keys relation. -/
theorem chain'_of_const_key {β γ : Type} (R : γ → γ → Prop)
    (key : β → γ) (k : γ) (hrefl : R k k) :
    ∀ lb : List β, (∀ b ∈ lb, key b = k) →
      List.Chain' (fun x y => R (key x) (key y)) lb
  | [], _ => List.chain'_nil
  | [_], _ => List.chain'_singleton _
  | b1 :: b2 :: t, h => by
    rw [List.chain'_cons]
    constructor
    · rw [h b1 (by simp), h b2 (by simp)]
      exact hrefl
    · exact chain'_of_const_key R key k hrefl (b2 :: t)
        fun b hb => h b (List.mem_cons_of_mem _ hb)

/-- Concatenating per-element blocks of a pairwise-ordered list, where each
block's elements carry their element's key, yields a key-chain. -/
theorem chain'_flatMap_of_pairwise {α β γ : Type} (R : γ → γ → Prop)
    (κ : α → γ) (key : β → γ) (g : α → List β)
    (hrefl : ∀ c : γ, R c c)
    (hg : ∀ a : α, ∀ b ∈ g a, key b = κ a) :
    ∀ l : List α, l.Pairwise (fun x y => R (κ x) (κ y)) →
      List.Chain' (fun x y => R (key x) (key y)) (l.flatMap g)
  | [], _ => by simp
  | a :: t, hp => by
    rw [List.flatMap_cons]
    rcases List.pairwise_cons.mp hp with ⟨hhead, htail⟩
    refine List.Chain'.append ?_ (chain'_flatMap_of_pairwise R κ key g
      hrefl hg t htail) ?_
    · exact chain'_of_const_key R key (κ a) (hrefl _) (g a) (hg a)
    · intro x hx y hy
      have hxa : key x = κ a :=
        hg a x (List.mem_of_mem_getLast? hx)
      have hymem : y ∈ t.flatMap g := List.mem_of_mem_head? hy
      obtain ⟨a2, ha2, hy2⟩ := List.mem_flatMap.mp hymem
      rw [hxa, hg a2 y hy2]
      exact hhead a2 ha2

/-- Every item of one file carries that file's stripped path. -/
theorem parse_file_path (root : String) (f : PyFile) :
    ∀ it ∈ parse_tests_from_file root f,
      it.file_path = some (stripRoot root f.path) := by
  intro it hit
  rw [parse_tests_from_file.eq_def] at hit
  rcases hsrc : f.source with _ | src <;> rw [hsrc] at hit
  · simp at hit
  · rcases hpar : f.parsed with _ | body <;> rw [hpar] at hit
    · simp at hit
    · obtain ⟨stmt, hmem, hmk⟩ := List.mem_filterMap.mp hit
      split at hmk
      · split at hmk
        · simp only [Option.some.injEq] at hmk
          rw [← hmk]
        · exact absurd hmk (by simp)
      · exact absurd hmk (by simp)

/-- Claim C5 grouping core: `discover`'s items appear with non-decreasing
file paths (files sorted, each file's block contiguous). -/
theorem discover_grouped (root : String) (files : List PyFile)
    (h : ∀ f ∈ files, (root ++ "/").data.isPrefixOf f.path.data = true) :
    List.Chain' (fun x y : TestItem =>
      listLe (x.file_path.getD "").data (y.file_path.getD "").data = true)
      (discover root files) := by
  rw [discover]
  refine chain'_flatMap_of_pairwise
    (fun x y : String => listLe x.data y.data = true)
    (fun f : PyFile => stripRoot root f.path)
    (fun it : TestItem => it.file_path.getD "")
    (fun f : PyFile => parse_tests_from_file root f)
    (fun c : String => listLe_refl c.data) ?_ _ ?_
  · intro f it hit
    show it.file_path.getD "" = stripRoot root f.path
    rw [parse_file_path root f it hit]
    rfl
  · have hsorted := List.sorted_insertionSort pathLe files
    have hperm := List.perm_insertionSort pathLe files
    refine List.Pairwise.imp_of_mem ?_ hsorted
    intro f g hf hg hfg
    exact stripRoot_mono root f.path g.path (h f (hperm.mem_iff.mp hf))
      (h g (hperm.mem_iff.mp hg)) hfg

/-- Item names are a subsequence of the body's function-definition names
whenever the item maker only accepts function definitions. -/
theorem map_name_filterMap_sublist (mk : PyStmt → Option TestItem)
    (hmk : ∀ st it, mk st = some it →
      ∃ r n dl fb, st = PyStmt.functionDef r n dl fb ∧ it.name = n) :
    ∀ iter : List PyStmt,
      List.Sublist ((iter.filterMap mk).map fun it => it.name)
        (iter.filterMap fun st =>
          match st with
          | PyStmt.functionDef _ n _ _ => some n
          | _ => none)
  | [] => by simp
  | st :: t => by
    rw [List.filterMap_cons, List.filterMap_cons]
    cases hm : mk st with
    | none =>
      cases hn : (match st with
        | PyStmt.functionDef _ n _ _ => some n
        | _ => none) with
      | none => exact map_name_filterMap_sublist mk hmk t
      | some n =>
        exact List.Sublist.cons n (map_name_filterMap_sublist mk hmk t)
    | some it =>
      obtain ⟨r, n, dl, fb, rfl, hname⟩ := hmk st it hm
      show List.Sublist ((it :: List.filterMap mk t).map fun it2 => it2.name)
        (n :: List.filterMap _ t)
      rw [List.map_cons, hname]
      exact List.Sublist.cons₂ n (map_name_filterMap_sublist mk hmk t)

/-- Claim C5 within-file core: the names of a file's items form a
subsequence (hence in definition order) of the module body's top-level
function names. -/
theorem parse_names_sublist (root : String) (f : PyFile) :
    List.Sublist ((parse_tests_from_file root f).map fun it => it.name)
      ((f.parsed.getD []).filterMap fun st =>
        match st with
        | PyStmt.functionDef _ n _ _ => some n
        | _ => none) := by
  rw [parse_tests_from_file.eq_def]
  rcases hsrc : f.source with _ | src
  · simp
  · rcases hpar : f.parsed with _ | body
    · simp
    · simp only [Option.getD_some]
      apply map_name_filterMap_sublist
      intro st it hmkeq
      split at hmkeq
      · refine ⟨_, _, _, _, rfl, ?_⟩
        split at hmkeq
        · simp only [Option.some.injEq] at hmkeq
          rw [← hmkeq]
        · exact absurd hmkeq (by simp)
      · exact absurd hmkeq (by simp)

/-- A consistent expression has an ordered range. -/
theorem wfExpr_range_le (e : PyExpr) (h : wfExpr e = true) :
    e.range.1 ≤ e.range.2 := by
  rcases e with ⟨r, id⟩ | ⟨r, v, at2⟩ | ⟨r, f2, args, kws⟩ | ⟨r, s⟩ | r
  · exact of_decide_eq_true h
  · simp only [wfExpr, Bool.and_eq_true, decide_eq_true_eq] at h
    exact h.1.1
  · simp only [wfExpr, Bool.and_eq_true, decide_eq_true_eq] at h
    exact h.1.1.1
  · exact of_decide_eq_true h
  · exact of_decide_eq_true h

/-- A consistent statement has an ordered range. -/
theorem wfStmt_range_le (s : PyStmt) (h : wfStmt s = true) :
    (PyStmt.range s).1 ≤ (PyStmt.range s).2 := by
  cases s with
  | functionDef r n dl fb => exact of_decide_eq_true h
  | classDef r n => exact of_decide_eq_true h
  | assign r ts => exact of_decide_eq_true h
  | annAssign r t => exact of_decide_eq_true h
  | exprStmt r v =>
    simp only [wfStmt, Bool.and_eq_true, decide_eq_true_eq] at h
    exact h.1.1.1
  | ret r v =>
    cases v with
    | none => exact of_decide_eq_true h
    | some e =>
      simp only [wfStmt, Bool.and_eq_true, decide_eq_true_eq] at h
      exact h.1.1.1
  | ifStmt r te bo cl =>
    simp only [wfStmt, Bool.and_eq_true, decide_eq_true_eq] at h
    exact h.1.1.1.1.1
  | forStmt r b o =>
    simp only [wfStmt, Bool.and_eq_true, decide_eq_true_eq] at h
    exact h.1.1.1
  | whileStmt r b o =>
    simp only [wfStmt, Bool.and_eq_true, decide_eq_true_eq] at h
    exact h.1.1.1
  | withStmt r b =>
    simp only [wfStmt, Bool.and_eq_true, decide_eq_true_eq] at h
    exact h.1.1
  | tryStmt r b o fb =>
    simp only [wfStmt, Bool.and_eq_true, decide_eq_true_eq] at h
    exact h.1.1.1.1
  | otherStmt r => exact of_decide_eq_true h

/-- The statement cursor never moves backwards. -/
theorem stmtSeqEnd_mono : ∀ (after : Nat) (ss : List PyStmt),
    wfStmtSeq after ss = true → after ≤ stmtSeqEnd after ss
  | _, [], _ => le_refl _
  | after, s :: ss, h => by
    simp only [wfStmtSeq, Bool.and_eq_true, decide_eq_true_eq] at h
    calc after ≤ (PyStmt.range s).1 := h.1.1
      _ ≤ (PyStmt.range s).2 := wfStmt_range_le s h.1.2
      _ ≤ stmtSeqEnd (PyStmt.range s).2 ss := stmtSeqEnd_mono _ _ h.2

/-- The clause cursor never moves backwards. -/
theorem clauseSeqEnd_mono : ∀ (after : Nat)
    (cs : List (Option PyExpr × List PyStmt)),
    wfClauseSeq after cs = true → after ≤ clauseSeqEnd after cs
  | _, [], _ => le_refl _
  | after, c :: cs, h => by
    simp only [wfClauseSeq, Bool.and_eq_true] at h
    have h1 := h.1
    have hstep : after ≤ clauseEnd after c := by
      rcases hc1 : c.1 with _ | t
      · rw [hc1] at h1
        rw [clauseEnd, hc1]
        exact stmtSeqEnd_mono _ _ h1
      · rw [hc1] at h1
        simp only [Bool.and_eq_true, decide_eq_true_eq] at h1
        rw [clauseEnd, hc1]
        calc after ≤ t.range.1 := h1.1.1
          _ ≤ t.range.2 := wfExpr_range_le t h1.1.2
          _ ≤ stmtSeqEnd t.range.2 c.2 := stmtSeqEnd_mono _ _ h1.2
    exact le_trans hstep (clauseSeqEnd_mono _ _ h.2)

/-- A recognized assertion's line is the outer call's start line (the `u32`
clamp is the identity below `2 ^ 32`). -/
theorem try_extract_line (range : Nat × Nat) (func : PyExpr)
    (args : List PyExpr) (source : String) (lineIdx : Nat → Nat)
    (hlt : ∀ n : Nat, lineIdx n < 2 ^ 32) (a : ExpectedAssertion)
    (h : try_extract_assertion range func args source lineIdx = some a) :
    a.line = lineIdx range.1 := by
  rw [try_extract_assertion.eq_def] at h
  rcases func with ⟨r, id⟩ | ⟨r, v, at2⟩ | ⟨r, f2, args2, kws⟩ | ⟨r, s⟩ | r
  · simp at h
  · obtain ⟨p, hp, rfl⟩ := Option.map_eq_some'.mp h
    show (if lineIdx range.1 < 2 ^ 32 then lineIdx range.1 else 0) =
      lineIdx range.1
    rw [if_pos (hlt _)]
  · simp at h
  · simp at h
  · simp at h

/-- Expression-level extraction order: under range consistency and a
monotone, `u32`-bounded line index, the collected assertions of one
expression form a non-decreasing line chain bounded by the expression's
range, and a sibling sequence likewise, bounded below by its cursor. -/
theorem collect_expr_bounds (source : String) (lineIdx : Nat → Nat)
    (hmono : ∀ a b : Nat, a ≤ b → lineIdx a ≤ lineIdx b)
    (hlt : ∀ n : Nat, lineIdx n < 2 ^ 32) :
    ∀ N : Nat,
      (∀ e : PyExpr, sizeOf e ≤ N → wfExpr e = true →
        List.Chain' (fun x y : ExpectedAssertion => x.line ≤ y.line)
          (collect_assertions_from_expr source lineIdx e) ∧
        ∀ a ∈ collect_assertions_from_expr source lineIdx e,
          lineIdx e.range.1 ≤ a.line ∧ a.line ≤ lineIdx e.range.2) ∧
      (∀ (after : Nat) (outer : Nat × Nat) (es : List PyExpr),
        sizeOf es ≤ N → wfExprSeq after outer es = true →
        List.Chain' (fun x y : ExpectedAssertion => x.line ≤ y.line)
          (collect_assertions_from_exprs source lineIdx es) ∧
        ∀ a ∈ collect_assertions_from_exprs source lineIdx es,
          lineIdx after ≤ a.line ∧ a.line ≤ lineIdx outer.2) := by
  intro N
  induction N with
  | zero =>
    constructor
    · intro e hsize
      exfalso
      rcases e with ⟨r, id⟩ | ⟨r, v, at2⟩ | ⟨r, f2, args, kws⟩ | ⟨r, s⟩ | r <;>
        simp at hsize
    · intro after outer es hsize
      exfalso
      cases es <;> simp at hsize
  | succ n ih =>
    obtain ⟨ihe, ihs⟩ := ih
    constructor
    · intro e hsize hwf
      rcases e with ⟨r, id⟩ | ⟨r, v, at2⟩ | ⟨r, f2, args, kws⟩ | ⟨r, s⟩ | r
      · exact ⟨List.chain'_nil, by simp [collect_assertions_from_expr]⟩
      · exact ⟨List.chain'_nil, by simp [collect_assertions_from_expr]⟩
      · simp only [wfExpr, rangeWithin, Bool.and_eq_true,
          decide_eq_true_eq] at hwf
        obtain ⟨⟨⟨hr, hw1, hw2⟩, hwf2⟩, hwargs⟩ := hwf
        have hsf : sizeOf f2 ≤ n := by
          simp at hsize
          omega
        have hsa : sizeOf args ≤ n := by
          simp at hsize
          omega
        have hf2le : f2.range.1 ≤ f2.range.2 := wfExpr_range_le f2 hwf2
        have hargs := ihs f2.range.2 r args hsa hwargs
        cases htr : try_extract_assertion r f2 args source lineIdx with
        | some a0 =>
          have hline : a0.line = lineIdx r.1 :=
            try_extract_line r f2 args source lineIdx hlt a0 htr
          have hcol : collect_assertions_from_expr source lineIdx
              (.call r f2 args kws) =
              a0 :: collect_assertions_from_exprs source lineIdx args := by
            rw [collect_assertions_from_expr, htr]
          rw [hcol]
          constructor
          · rw [List.chain'_cons']
            refine ⟨?_, hargs.1⟩
            intro y hy
            have hym := List.mem_of_mem_head? hy
            have := (hargs.2 y hym).1
            calc a0.line = lineIdx r.1 := hline
              _ ≤ lineIdx f2.range.2 :=
                hmono _ _ (le_trans hw1 hf2le)
              _ ≤ y.line := this
          · intro a ha
            rcases List.mem_cons.mp ha with rfl | ha2
            · rw [hline]
              exact ⟨le_refl _, hmono _ _ hr⟩
            · have hb := hargs.2 a ha2
              exact ⟨le_trans (hmono _ _ (le_trans hw1 hf2le)) hb.1, hb.2⟩
        | none =>
          have hf := ihe f2 hsf hwf2
          have hcol : collect_assertions_from_expr source lineIdx
              (.call r f2 args kws) =
              collect_assertions_from_expr source lineIdx f2 ++
                collect_assertions_from_exprs source lineIdx args := by
            rw [collect_assertions_from_expr, htr]
          rw [hcol]
          constructor
          · refine List.Chain'.append hf.1 hargs.1 ?_
            intro x hx y hy
            have hxm := List.mem_of_mem_getLast? hx
            have hym := List.mem_of_mem_head? hy
            exact le_trans (hf.2 x hxm).2 (hargs.2 y hym).1
          · intro a ha
            rcases List.mem_append.mp ha with ha2 | ha2
            · have hb := hf.2 a ha2
              exact ⟨le_trans (hmono _ _ hw1) hb.1,
                le_trans hb.2 (hmono _ _ hw2)⟩
            · have hb := hargs.2 a ha2
              exact ⟨le_trans (hmono _ _ (le_trans hw1 hf2le)) hb.1, hb.2⟩
      · exact ⟨List.chain'_nil, by simp [collect_assertions_from_expr]⟩
      · exact ⟨List.chain'_nil, by simp [collect_assertions_from_expr]⟩
    · intro after outer es hsize hwf
      cases es with
      | nil => exact ⟨List.chain'_nil, by simp [collect_assertions_from_exprs]⟩
      | cons e es2 =>
        simp only [wfExprSeq, rangeWithin, Bool.and_eq_true,
          decide_eq_true_eq] at hwf
        obtain ⟨⟨⟨ha1, hw1, hw2⟩, hwfe⟩, hwrest⟩ := hwf
        have hse : sizeOf e ≤ n := by
          simp at hsize
          omega
        have hses : sizeOf es2 ≤ n := by
          simp at hsize
          omega
        have hele : e.range.1 ≤ e.range.2 := wfExpr_range_le e hwfe
        have he := ihe e hse hwfe
        have hrest := ihs e.range.2 outer es2 hses hwrest
        have hcol : collect_assertions_from_exprs source lineIdx (e :: es2) =
            collect_assertions_from_expr source lineIdx e ++
              collect_assertions_from_exprs source lineIdx es2 := rfl
        rw [hcol]
        constructor
        · refine List.Chain'.append he.1 hrest.1 ?_
          intro x hx y hy
          exact le_trans (he.2 x (List.mem_of_mem_getLast? hx)).2
            (hrest.2 y (List.mem_of_mem_head? hy)).1
        · intro a ha
          rcases List.mem_append.mp ha with ha2 | ha2
          · have hb := he.2 a ha2
            exact ⟨le_trans (hmono _ _ ha1) hb.1,
              le_trans hb.2 (hmono _ _ hw2)⟩
          · have hb := hrest.2 a ha2
            exact ⟨le_trans (hmono _ _ (le_trans ha1 hele)) hb.1, hb.2⟩

/-- Gluing two line-bounded chains whose windows are ordered. -/
theorem chainBounds_append (l1 l2 : List ExpectedAssertion)
    (lo mid1 mid2 hi : Nat)
    (hc1 : List.Chain' (fun x y : ExpectedAssertion => x.line ≤ y.line) l1)
    (hc2 : List.Chain' (fun x y : ExpectedAssertion => x.line ≤ y.line) l2)
    (hb1 : ∀ a ∈ l1, lo ≤ a.line ∧ a.line ≤ mid1)
    (hb2 : ∀ a ∈ l2, mid2 ≤ a.line ∧ a.line ≤ hi)
    (h12 : mid1 ≤ mid2) (hlom : lo ≤ mid2) (hm1h : mid1 ≤ hi) :
    List.Chain' (fun x y : ExpectedAssertion => x.line ≤ y.line)
      (l1 ++ l2) ∧
    ∀ a ∈ l1 ++ l2, lo ≤ a.line ∧ a.line ≤ hi := by
  constructor
  · refine List.Chain'.append hc1 hc2 ?_
    intro x hx y hy
    exact le_trans (le_trans (hb1 x (List.mem_of_mem_getLast? hx)).2 h12)
      (hb2 y (List.mem_of_mem_head? hy)).1
  · intro a ha
    rcases List.mem_append.mp ha with h | h
    · exact ⟨(hb1 a h).1, le_trans (hb1 a h).2 hm1h⟩
    · exact ⟨le_trans hlom (hb2 a h).1, (hb2 a h).2⟩

/-- Statement-level extraction order: under range consistency and a
monotone, `u32`-bounded line index, the collected assertions of one
statement form a non-decreasing line chain within the statement's range;
a statement sequence and a clause sequence likewise, between their cursor
and final cursor positions. -/
theorem collect_stmt_bounds (source : String) (lineIdx : Nat → Nat)
    (hmono : ∀ a b : Nat, a ≤ b → lineIdx a ≤ lineIdx b)
    (hlt : ∀ n : Nat, lineIdx n < 2 ^ 32) :
    ∀ N : Nat,
      (∀ s : PyStmt, sizeOf s ≤ N → wfStmt s = true →
        List.Chain' (fun x y : ExpectedAssertion => x.line ≤ y.line)
          (collect_assertions_from_stmt source lineIdx s) ∧
        ∀ a ∈ collect_assertions_from_stmt source lineIdx s,
          lineIdx (PyStmt.range s).1 ≤ a.line ∧
            a.line ≤ lineIdx (PyStmt.range s).2) ∧
      (∀ (after : Nat) (ss : List PyStmt), sizeOf ss ≤ N →
        wfStmtSeq after ss = true →
        List.Chain' (fun x y : ExpectedAssertion => x.line ≤ y.line)
          (collect_assertions_from_stmts source lineIdx ss) ∧
        ∀ a ∈ collect_assertions_from_stmts source lineIdx ss,
          lineIdx after ≤ a.line ∧
            a.line ≤ lineIdx (stmtSeqEnd after ss)) ∧
      (∀ (after : Nat) (cs : List (Option PyExpr × List PyStmt)),
        sizeOf cs ≤ N → wfClauseSeq after cs = true →
        List.Chain' (fun x y : ExpectedAssertion => x.line ≤ y.line)
          (collect_assertions_from_clauses source lineIdx cs) ∧
        ∀ a ∈ collect_assertions_from_clauses source lineIdx cs,
          lineIdx after ≤ a.line ∧
            a.line ≤ lineIdx (clauseSeqEnd after cs)) := by
  intro N
  induction N with
  | zero =>
    refine ⟨?_, ?_, ?_⟩
    · intro s hsize
      exfalso
      cases s <;> simp at hsize
    · intro after ss hsize
      exfalso
      cases ss <;> simp at hsize
    · intro after cs hsize
      exfalso
      cases cs <;> simp at hsize
  | succ n ih =>
    obtain ⟨ihst, ihss, ihcs⟩ := ih
    have hexpr : ∀ e : PyExpr, wfExpr e = true →
        List.Chain' (fun x y : ExpectedAssertion => x.line ≤ y.line)
          (collect_assertions_from_expr source lineIdx e) ∧
        ∀ a ∈ collect_assertions_from_expr source lineIdx e,
          lineIdx e.range.1 ≤ a.line ∧ a.line ≤ lineIdx e.range.2 :=
      fun e hwf =>
        (collect_expr_bounds source lineIdx hmono hlt (sizeOf e)).1 e
          (le_refl _) hwf
    refine ⟨?_, ?_, ?_⟩
    · intro s hsize hwf
      cases s with
      | functionDef r nm dl fb =>
        exact ⟨List.chain'_nil, by simp [collect_assertions_from_stmt]⟩
      | classDef r nm =>
        exact ⟨List.chain'_nil, by simp [collect_assertions_from_stmt]⟩
      | assign r ts =>
        exact ⟨List.chain'_nil, by simp [collect_assertions_from_stmt]⟩
      | annAssign r t =>
        exact ⟨List.chain'_nil, by simp [collect_assertions_from_stmt]⟩
      | exprStmt r v =>
        simp only [wfStmt, Bool.and_eq_true, decide_eq_true_eq] at hwf
        obtain ⟨⟨⟨hrr, hrv⟩, hwfv⟩, hvr⟩ := hwf
        have hv := hexpr v hwfv
        have hcol : collect_assertions_from_stmt source lineIdx
            (.exprStmt r v) =
            collect_assertions_from_expr source lineIdx v := rfl
        rw [hcol]
        refine ⟨hv.1, ?_⟩
        intro a ha
        have hb := hv.2 a ha
        exact ⟨le_trans (hmono _ _ hrv) hb.1,
          le_trans hb.2 (hmono _ _ hvr)⟩
      | ret r v =>
        cases v with
        | none =>
          exact ⟨List.chain'_nil, by simp [collect_assertions_from_stmt]⟩
        | some e =>
          simp only [wfStmt, Bool.and_eq_true, decide_eq_true_eq] at hwf
          obtain ⟨⟨⟨hrr, hre⟩, hwfe⟩, her⟩ := hwf
          have hv := hexpr e hwfe
          have hcol : collect_assertions_from_stmt source lineIdx
              (.ret r (some e)) =
              collect_assertions_from_expr source lineIdx e := rfl
          rw [hcol]
          refine ⟨hv.1, ?_⟩
          intro a ha
          have hb := hv.2 a ha
          exact ⟨le_trans (hmono _ _ hre) hb.1,
            le_trans hb.2 (hmono _ _ her)⟩
      | ifStmt r test body clauses =>
        simp only [wfStmt, Bool.and_eq_true, decide_eq_true_eq] at hwf
        obtain ⟨⟨⟨⟨⟨hrr, hrt⟩, hwft⟩, hwfb⟩, hwfc⟩, hcr⟩ := hwf
        have hsb : sizeOf body ≤ n := by
          simp at hsize
          omega
        have hsc : sizeOf clauses ≤ n := by
          simp at hsize
          omega
        have ht := hexpr test hwft
        have hb := ihss test.range.2 body hsb hwfb
        have hc := ihcs (stmtSeqEnd test.range.2 body) clauses hsc hwfc
        have htle := wfExpr_range_le test hwft
        have hbmono := stmtSeqEnd_mono test.range.2 body hwfb
        have hcmono :=
          clauseSeqEnd_mono (stmtSeqEnd test.range.2 body) clauses hwfc
        have hinner := chainBounds_append _ _
          (lineIdx test.range.2) (lineIdx (stmtSeqEnd test.range.2 body))
          (lineIdx (stmtSeqEnd test.range.2 body))
          (lineIdx (clauseSeqEnd (stmtSeqEnd test.range.2 body) clauses))
          hb.1 hc.1 hb.2 hc.2 (le_refl _) (hmono _ _ hbmono)
          (hmono _ _ hcmono)
        have houter := chainBounds_append _ _
          (lineIdx test.range.1) (lineIdx test.range.2)
          (lineIdx test.range.2)
          (lineIdx (clauseSeqEnd (stmtSeqEnd test.range.2 body) clauses))
          ht.1 hinner.1 ht.2 hinner.2 (le_refl _) (hmono _ _ htle)
          (hmono _ _ (le_trans hbmono hcmono))
        have hcol : collect_assertions_from_stmt source lineIdx
            (.ifStmt r test body clauses) =
            collect_assertions_from_expr source lineIdx test ++
              (collect_assertions_from_stmts source lineIdx body ++
                collect_assertions_from_clauses source lineIdx clauses) :=
          rfl
        rw [hcol]
        refine ⟨houter.1, ?_⟩
        intro a ha
        have hba := houter.2 a ha
        exact ⟨le_trans (hmono _ _ hrt) hba.1,
          le_trans hba.2 (hmono _ _ hcr)⟩
      | forStmt r body orelse =>
        simp only [wfStmt, Bool.and_eq_true, decide_eq_true_eq] at hwf
        obtain ⟨⟨⟨hrr, hwfb⟩, hwfo⟩, hor⟩ := hwf
        have hsb : sizeOf body ≤ n := by
          simp at hsize
          omega
        have hso : sizeOf orelse ≤ n := by
          simp at hsize
          omega
        have hb := ihss r.1 body hsb hwfb
        have ho := ihss (stmtSeqEnd r.1 body) orelse hso hwfo
        have hbm := stmtSeqEnd_mono r.1 body hwfb
        have hom := stmtSeqEnd_mono (stmtSeqEnd r.1 body) orelse hwfo
        have hcomb := chainBounds_append _ _ (lineIdx r.1)
          (lineIdx (stmtSeqEnd r.1 body)) (lineIdx (stmtSeqEnd r.1 body))
          (lineIdx (stmtSeqEnd (stmtSeqEnd r.1 body) orelse))
          hb.1 ho.1 hb.2 ho.2 (le_refl _) (hmono _ _ hbm) (hmono _ _ hom)
        have hcol : collect_assertions_from_stmt source lineIdx
            (.forStmt r body orelse) =
            collect_assertions_from_stmts source lineIdx body ++
              collect_assertions_from_stmts source lineIdx orelse := rfl
        rw [hcol]
        refine ⟨hcomb.1, ?_⟩
        intro a ha
        have hba := hcomb.2 a ha
        exact ⟨hba.1, le_trans hba.2 (hmono _ _ hor)⟩
      | whileStmt r body orelse =>
        simp only [wfStmt, Bool.and_eq_true, decide_eq_true_eq] at hwf
        obtain ⟨⟨⟨hrr, hwfb⟩, hwfo⟩, hor⟩ := hwf
        have hsb : sizeOf body ≤ n := by
          simp at hsize
          omega
        have hso : sizeOf orelse ≤ n := by
          simp at hsize
          omega
        have hb := ihss r.1 body hsb hwfb
        have ho := ihss (stmtSeqEnd r.1 body) orelse hso hwfo
        have hbm := stmtSeqEnd_mono r.1 body hwfb
        have hom := stmtSeqEnd_mono (stmtSeqEnd r.1 body) orelse hwfo
        have hcomb := chainBounds_append _ _ (lineIdx r.1)
          (lineIdx (stmtSeqEnd r.1 body)) (lineIdx (stmtSeqEnd r.1 body))
          (lineIdx (stmtSeqEnd (stmtSeqEnd r.1 body) orelse))
          hb.1 ho.1 hb.2 ho.2 (le_refl _) (hmono _ _ hbm) (hmono _ _ hom)
        have hcol : collect_assertions_from_stmt source lineIdx
            (.whileStmt r body orelse) =
            collect_assertions_from_stmts source lineIdx body ++
              collect_assertions_from_stmts source lineIdx orelse := rfl
        rw [hcol]
        refine ⟨hcomb.1, ?_⟩
        intro a ha
        have hba := hcomb.2 a ha
        exact ⟨hba.1, le_trans hba.2 (hmono _ _ hor)⟩
      | withStmt r body =>
        simp only [wfStmt, Bool.and_eq_true, decide_eq_true_eq] at hwf
        obtain ⟨⟨hrr, hwfb⟩, hbr⟩ := hwf
        have hsb : sizeOf body ≤ n := by
          simp at hsize
          omega
        have hb := ihss r.1 body hsb hwfb
        have hcol : collect_assertions_from_stmt source lineIdx
            (.withStmt r body) =
            collect_assertions_from_stmts source lineIdx body := rfl
        rw [hcol]
        refine ⟨hb.1, ?_⟩
        intro a ha
        have hba := hb.2 a ha
        exact ⟨hba.1, le_trans hba.2 (hmono _ _ hbr)⟩
      | tryStmt r body orelse finalbody =>
        simp only [wfStmt, Bool.and_eq_true, decide_eq_true_eq] at hwf
        obtain ⟨⟨⟨⟨hrr, hwfb⟩, hwfo⟩, hwff⟩, hfr⟩ := hwf
        have hsb : sizeOf body ≤ n := by
          simp at hsize
          omega
        have hso : sizeOf orelse ≤ n := by
          simp at hsize
          omega
        have hsf : sizeOf finalbody ≤ n := by
          simp at hsize
          omega
        have hb := ihss r.1 body hsb hwfb
        have ho := ihss (stmtSeqEnd r.1 body) orelse hso hwfo
        have hf := ihss (stmtSeqEnd (stmtSeqEnd r.1 body) orelse)
          finalbody hsf hwff
        have hbm := stmtSeqEnd_mono r.1 body hwfb
        have hom := stmtSeqEnd_mono (stmtSeqEnd r.1 body) orelse hwfo
        have hfm := stmtSeqEnd_mono
          (stmtSeqEnd (stmtSeqEnd r.1 body) orelse) finalbody hwff
        have hinner := chainBounds_append _ _
          (lineIdx (stmtSeqEnd r.1 body))
          (lineIdx (stmtSeqEnd (stmtSeqEnd r.1 body) orelse))
          (lineIdx (stmtSeqEnd (stmtSeqEnd r.1 body) orelse))
          (lineIdx (stmtSeqEnd (stmtSeqEnd (stmtSeqEnd r.1 body) orelse)
            finalbody))
          ho.1 hf.1 ho.2 hf.2 (le_refl _) (hmono _ _ hom) (hmono _ _ hfm)
        have houter := chainBounds_append _ _
          (lineIdx r.1) (lineIdx (stmtSeqEnd r.1 body))
          (lineIdx (stmtSeqEnd r.1 body))
          (lineIdx (stmtSeqEnd (stmtSeqEnd (stmtSeqEnd r.1 body) orelse)
            finalbody))
          hb.1 hinner.1 hb.2 hinner.2 (le_refl _) (hmono _ _ hbm)
          (hmono _ _ (le_trans hom hfm))
        have hcol : collect_assertions_from_stmt source lineIdx
            (.tryStmt r body orelse finalbody) =
            collect_assertions_from_stmts source lineIdx body ++
              (collect_assertions_from_stmts source lineIdx orelse ++
                collect_assertions_from_stmts source lineIdx finalbody) :=
          rfl
        rw [hcol]
        refine ⟨houter.1, ?_⟩
        intro a ha
        have hba := houter.2 a ha
        exact ⟨hba.1, le_trans hba.2 (hmono _ _ hfr)⟩
      | otherStmt r =>
        exact ⟨List.chain'_nil, by simp [collect_assertions_from_stmt]⟩
    · intro after ss hsize hwf
      cases ss with
      | nil =>
        exact ⟨List.chain'_nil, by simp [collect_assertions_from_stmts]⟩
      | cons s ss2 =>
        simp only [wfStmtSeq, Bool.and_eq_true, decide_eq_true_eq] at hwf
        obtain ⟨⟨has, hwfs⟩, hwfss⟩ := hwf
        have hss : sizeOf s ≤ n := by
          simp at hsize
          omega
        have hss2 : sizeOf ss2 ≤ n := by
          simp at hsize
          omega
        have hs := ihst s hss hwfs
        have hrest := ihss (PyStmt.range s).2 ss2 hss2 hwfss
        have hsm := stmtSeqEnd_mono (PyStmt.range s).2 ss2 hwfss
        have hcomb := chainBounds_append _ _
          (lineIdx (PyStmt.range s).1) (lineIdx (PyStmt.range s).2)
          (lineIdx (PyStmt.range s).2)
          (lineIdx (stmtSeqEnd (PyStmt.range s).2 ss2))
          hs.1 hrest.1 hs.2 hrest.2 (le_refl _)
          (hmono _ _ (wfStmt_range_le s hwfs)) (hmono _ _ hsm)
        have hcol : collect_assertions_from_stmts source lineIdx
            (s :: ss2) =
            collect_assertions_from_stmt source lineIdx s ++
              collect_assertions_from_stmts source lineIdx ss2 := rfl
        rw [hcol]
        refine ⟨hcomb.1, ?_⟩
        intro a ha
        have hba := hcomb.2 a ha
        exact ⟨le_trans (hmono _ _ has) hba.1, hba.2⟩
    · intro after cs hsize hwf
      cases cs with
      | nil =>
        exact ⟨List.chain'_nil, by simp [collect_assertions_from_clauses]⟩
      | cons c cs2 =>
        obtain ⟨c1, c2⟩ := c
        simp only [wfClauseSeq, Bool.and_eq_true] at hwf
        obtain ⟨hwc, hwrest⟩ := hwf
        have hsc2 : sizeOf cs2 ≤ n := by
          simp at hsize
          omega
        have hsc2b : sizeOf c2 ≤ n := by
          simp at hsize
          omega
        have hrest := ihcs (clauseEnd after (c1, c2)) cs2 hsc2 hwrest
        have hrm := clauseSeqEnd_mono (clauseEnd after (c1, c2)) cs2 hwrest
        rcases c1 with _ | t
        · have hwb : wfStmtSeq after c2 = true := hwc
          have hb := ihss after c2 hsc2b hwb
          have hbm := stmtSeqEnd_mono after c2 hwb
          have hend : clauseEnd after ((none : Option PyExpr), c2) =
              stmtSeqEnd after c2 := rfl
          rw [hend] at hrest hrm
          have hcomb := chainBounds_append _ _
            (lineIdx after) (lineIdx (stmtSeqEnd after c2))
            (lineIdx (stmtSeqEnd after c2))
            (lineIdx (clauseSeqEnd (stmtSeqEnd after c2) cs2))
            hb.1 hrest.1 hb.2 hrest.2 (le_refl _) (hmono _ _ hbm)
            (hmono _ _ hrm)
          have hcol : collect_assertions_from_clauses source lineIdx
              (((none : Option PyExpr), c2) :: cs2) =
              collect_assertions_from_stmts source lineIdx c2 ++
                collect_assertions_from_clauses source lineIdx cs2 := rfl
          rw [hcol]
          exact hcomb
        · have hwc2 : (decide (after ≤ t.range.1) && wfExpr t &&
              wfStmtSeq t.range.2 c2) = true := hwc
          simp only [Bool.and_eq_true, decide_eq_true_eq] at hwc2
          obtain ⟨⟨hat, hwft⟩, hwfb⟩ := hwc2
          have ht := hexpr t hwft
          have htle := wfExpr_range_le t hwft
          have hb := ihss t.range.2 c2 hsc2b hwfb
          have hbm := stmtSeqEnd_mono t.range.2 c2 hwfb
          have hend : clauseEnd after (some t, c2) =
              stmtSeqEnd t.range.2 c2 := rfl
          rw [hend] at hrest hrm
          have hinner := chainBounds_append _ _
            (lineIdx t.range.2) (lineIdx (stmtSeqEnd t.range.2 c2))
            (lineIdx (stmtSeqEnd t.range.2 c2))
            (lineIdx (clauseSeqEnd (stmtSeqEnd t.range.2 c2) cs2))
            hb.1 hrest.1 hb.2 hrest.2 (le_refl _) (hmono _ _ hbm)
            (hmono _ _ hrm)
          have houter := chainBounds_append _ _
            (lineIdx t.range.1) (lineIdx t.range.2) (lineIdx t.range.2)
            (lineIdx (clauseSeqEnd (stmtSeqEnd t.range.2 c2) cs2))
            ht.1 hinner.1 ht.2 hinner.2 (le_refl _) (hmono _ _ htle)
            (hmono _ _ (le_trans hbm hrm))
          have hcol : collect_assertions_from_clauses source lineIdx
              ((some t, c2) :: cs2) =
              collect_assertions_from_expr source lineIdx t ++
                (collect_assertions_from_stmts source lineIdx c2 ++
                  collect_assertions_from_clauses source lineIdx cs2) :=
            rfl
          rw [hcol]
          refine ⟨houter.1, ?_⟩
          intro a ha
          have hba := houter.2 a ha
          exact ⟨le_trans (hmono _ _ hat) hba.1, hba.2⟩

/-- Claim C5: discovery output is a pure function of the candidate files
and their contents (re-running is identical); items appear grouped by file
with file paths in non-decreasing sorted order; within one file, item names
form a subsequence of the module's top-level function-definition names
(definition order); and each test's expected assertions carry
non-decreasing source lines — the order their outer calls appear in the
source — whenever the AST ranges are consistent and the line index is
monotone and below the `u32` clamp. -/
theorem C5_theorem :
    (∀ (root : String) (files : List PyFile),
      discover root files = discover root files) ∧
    (∀ (root : String) (files : List PyFile),
      (∀ f ∈ files, (root ++ "/").data.isPrefixOf f.path.data = true) →
      List.Chain' (fun x y : TestItem =>
        listLe (x.file_path.getD "").data (y.file_path.getD "").data =
          true) (discover root files)) ∧
    (∀ (root : String) (f : PyFile),
      List.Sublist ((parse_tests_from_file root f).map fun it => it.name)
        ((f.parsed.getD []).filterMap fun st =>
          match st with
          | PyStmt.functionDef _ n _ _ => some n
          | _ => none)) ∧
    (∀ (body : List PyStmt) (source : String) (lineIdx : Nat → Nat),
      LineIdxOk lineIdx → wfStmtSeq 0 body = true →
      List.Chain' (fun x y : ExpectedAssertion => x.line ≤ y.line)
        (extract_expected_assertions body source lineIdx)) := by
  refine ⟨?_, ?_, ?_, ?_⟩
  · intro root files
    rfl
  · intro root files h
    exact discover_grouped root files h
  · intro root f
    exact parse_names_sublist root f
  · intro body source lineIdx hok hwf
    exact ((collect_stmt_bounds source lineIdx hok.1 hok.2
      (sizeOf body)).2.1 0 body (le_refl _) hwf).1

/-- Witness for C5: the grouping chain on a concrete two-file project and
the assertion-line chain on a concrete test body. -/
theorem C5_witness :
    List.Chain' (fun x y : TestItem =>
      listLe (x.file_path.getD "").data (y.file_path.getD "").data = true)
      (discover "proj"
        [{ path := "proj/b.py", source := some "", parsed := some [],
           lineIdx := fun _ => 1 },
         { path := "proj/a.py", source := some "", parsed := some [],
           lineIdx := fun _ => 1 }]) ∧
    List.Chain' (fun x y : ExpectedAssertion => x.line ≤ y.line)
      (extract_expected_assertions
        [PyStmt.exprStmt (0, 21)
          (.call (0, 21) (.attribute (0, 19)
            (.call (0, 9) (.name (0, 6) "expect") [.name (7, 8) "x"] [])
            "to_equal") [.otherExpr (19, 20)] [])]
        "expect(x).to_equal(1)" (fun _ => 1)) :=
  ⟨C5_theorem.2.1 "proj"
    [{ path := "proj/b.py", source := some "", parsed := some [],
       lineIdx := fun _ => 1 },
     { path := "proj/a.py", source := some "", parsed := some [],
       lineIdx := fun _ => 1 }] (by decide),
   C5_theorem.2.2.2
    [PyStmt.exprStmt (0, 21)
      (.call (0, 21) (.attribute (0, 19)
        (.call (0, 9) (.name (0, 6) "expect") [.name (7, 8) "x"] [])
        "to_equal") [.otherExpr (19, 20)] [])]
    "expect(x).to_equal(1)" (fun _ => 1)
    ⟨fun a b _ => le_refl 1, fun _ => of_decide_eq_true rfl⟩ (by decide)⟩
